import Mathlib

/-!
# U9200 power HAL (`viva/power/power_viva.c`)

A shallow embedding of the power HAL module and the properties of its
tokenizer, its sysfs accessors, its initialisation routine, its boost-pulse
descriptor cache and its hint dispatcher.

Conventions of the embedding.

* A `char *` is a `List Char`: the bytes stored from the pointer on.  The C
  string it denotes ends before the first NUL byte (or at the end of the
  list), see `cstr`.
* System calls append to a chronological trace of `Event`s.  What a system
  call returns is decided by an `Env`, which may look at the whole history, so
  that opens, reads and writes may succeed or fail in any pattern.
* `int` values are `Int`; no arithmetic of the module can overflow (the only
  increments are bounded by `MAX_FREQ_NUMBER`).
* `strdup` is taken to succeed (no allocation failure).
* `pthread_mutex_lock` / `pthread_mutex_unlock` are recorded as events; calls
  are sequential.
-/

namespace PowerViva

/-! ## Constants -/

def CPUFREQ_INTERACTIVE : String := "/sys/devices/system/cpu/cpufreq/interactive/"

def CPUFREQ_CPU0 : String := "/sys/devices/system/cpu/cpu0/cpufreq/"

def BOOSTPULSE_PATH : String := CPUFREQ_INTERACTIVE ++ "boostpulse"

def MAX_FREQ_NUMBER : Int := 20

def NOM_FREQ_INDEX : Int := 2

/-! ## Strings -/

/-- The NUL byte. -/
def NUL : Char := Char.ofNat 0

/-- The C string stored at a pointer: the bytes before the first NUL. -/
def cstr (s : List Char) : List Char := s.takeWhile (fun c => c != NUL)

/-- Libc `strlen`. -/
def strlen (s : List Char) : Nat := (cstr s).length

/-- Libc `strdup`, allocation taken to succeed: a fresh copy of the C string. -/
def strdup (s : List Char) : List Char := cstr s

/-- The delimiter set `" \t\r\n"` of `str_to_tokens`. -/
def DELIMS : List Char := [Char.ofNat 32, Char.ofNat 9, Char.ofNat 13, Char.ofNat 10]

/-- Libc `strtok_r(str, delim, &saveptr)`: `str = none` is a NULL first
argument (continue from `saveptr`).  Returns the token (`none` is NULL) and the
new value of `saveptr`.  The bytes are scanned up to the first NUL; leading
delimiters are skipped (`strspn`), the token runs up to the next delimiter
(`strcspn`), and the save pointer is left on the terminating NUL or just after
the delimiter that ended the token. -/
def strtok_r (str : Option (List Char)) (delim : List Char) (saveptr : List Char) :
    Option (List Char) × List Char :=
  let s := match str with
    | some p => p
    | none => saveptr
  let s1 := s.dropWhile (fun c => c != NUL && delim.contains c)
  match s1 with
  | [] => (none, s1)
  | c :: _ =>
    if c = NUL then (none, s1)
    else
      let tok := s1.takeWhile (fun c => c != NUL && !delim.contains c)
      let e := s1.dropWhile (fun c => c != NUL && !delim.contains c)
      match e with
      | [] => (some tok, e)
      | d :: r => if d = NUL then (some tok, e) else (some tok, r)

/-- An array of `char *`, as a map from index to pointer (`none` is NULL). -/
abbrev PtrArray := Nat → Option (List Char)

/-- The assignment `a[i] = p`. -/
def PtrArray.store (a : PtrArray) (i : Nat) (p : Option (List Char)) : PtrArray :=
  fun j => if j = i then p else a j

/-- The `do { ... } while (token_pos && token_idx < max_token_idx)` loop of
`str_to_tokens`; one unit of fuel per iteration, `none` when it runs out. -/
def str_to_tokens_loop : Nat → Option (List Char) → List Char → PtrArray → Nat → Int →
    Option (Nat × PtrArray)
  | 0, _, _, _, _, _ => none
  | fuel + 1, start_pos, pos, token, token_idx, max_token_idx =>
    match strtok_r start_pos DELIMS pos with
    | (some token_pos, pos1) =>
      let token1 := token.store token_idx (some (strdup token_pos))
      let token_idx1 := token_idx + 1
      if (token_idx1 : Int) < max_token_idx then
        str_to_tokens_loop fuel none pos1 token1 token_idx1 max_token_idx
      else some (token_idx1, token1)
    | (none, _) => some (token_idx, token)

/-- The function `str_to_tokens(str, token, max_token_idx)`: the returned count
and the token array after the call.  `none` for `str` or `token` is a NULL
pointer.  The loop is given `length str + 1` units of fuel. -/
def str_to_tokens (str : Option (List Char)) (token : Option PtrArray) (max_token_idx : Int) :
    Option (Nat × Option PtrArray) :=
  match str, token with
  | some s, some t =>
    if max_token_idx = 0 then some (0, token)
    else
      match str_to_tokens_loop (s.length + 1) (some s) [] t 0 max_token_idx with
      | some (n, t1) => some (n, some t1)
      | none => none
  | _, _ => some (0, token)

/-! ## Effects -/

/-- Access mode given to `open`. -/
inductive OFlag
  | O_RDONLY
  | O_WRONLY
  deriving DecidableEq, Repr

/-- Log priority: `ALOGE` and `ALOGI`. -/
inductive LogPrio
  | error
  | info
  deriving DecidableEq, Repr

/-- What the module does to the outside world, each with the value returned. -/
inductive Event
  | sys_open (path : String) (flag : OFlag) (ret : Int)
  | sys_read (fd : Int) (count : Nat) (ret : Int)
  | sys_write (fd : Int) (bytes : List Char) (ret : Int)
  | sys_close (fd : Int)
  | mutex_lock
  | mutex_unlock
  | alog (prio : LogPrio) (msg : String)
  deriving DecidableEq, Repr

/-- The outside world: what each system call returns, given the history. -/
structure Env where
  /-- The descriptor returned by `open(path, flag)`, negative on failure. -/
  open_ret : List Event → String → OFlag → Int
  /-- The bytes delivered by `read(fd, buf, count)`, `none` on failure. -/
  read_ret : List Event → Int → Nat → Option (List Char)
  /-- The value returned by `write(fd, bytes, length bytes)`. -/
  write_ret : List Event → Int → List Char → Int
  /-- The text `strerror_r(errno, ...)` produces. -/
  errstr : List Event → String

/-- The function `sysfs_write(path, s)`: the trace after the call. -/
def sysfs_write (env : Env) (tr : List Event) (path : String) (s : List Char) : List Event :=
  let fd := env.open_ret tr path OFlag.O_WRONLY
  let tr1 := tr ++ [Event.sys_open path OFlag.O_WRONLY fd]
  if fd < 0 then
    tr1 ++ [Event.alog LogPrio.error ("Error opening " ++ path ++ ": " ++ env.errstr tr1 ++ "\n")]
  else
    let len := env.write_ret tr1 fd (s.take (strlen s))
    let tr2 := tr1 ++ [Event.sys_write fd (s.take (strlen s)) len]
    let tr3 :=
      if len < 0 then
        tr2 ++ [Event.alog LogPrio.error
          ("Error writing to " ++ path ++ ": " ++ env.errstr tr2 ++ "\n")]
      else tr2
    tr3 ++ [Event.sys_close fd]

/-- The function `sysfs_read(path, s, s_size)`: the returned value, the buffer
`s` after the call and the trace after the call.  `s_size` is a `sizeof`. -/
def sysfs_read (env : Env) (tr : List Event) (path : Option String) (s : Option (List Char))
    (s_size : Nat) : Int × Option (List Char) × List Event :=
  match path, s with
  | some p, some buf =>
    if s_size = 0 then (-1, s, tr)
    else
      let fd := env.open_ret tr p OFlag.O_RDONLY
      let tr1 := tr ++ [Event.sys_open p OFlag.O_RDONLY fd]
      if fd < 0 then
        (fd, s, tr1 ++ [Event.alog LogPrio.error
          ("Error opening " ++ p ++ ": " ++ env.errstr tr1 ++ "\n")])
      else
        match env.read_ret tr1 fd (s_size - 1) with
        | none =>
          let tr2 := tr1 ++ [Event.sys_read fd (s_size - 1) (-1)]
          (-1, s, tr2 ++ [Event.alog LogPrio.error
            ("Error reading from " ++ p ++ ": " ++ env.errstr tr2 ++ "\n"),
            Event.sys_close fd])
        | some data =>
          let got := data.take (s_size - 1)
          let len := got.length
          (len, some (got ++ NUL :: buf.drop (len + 1)),
            tr1 ++ [Event.sys_read fd (s_size - 1) len, Event.sys_close fd])
  | _, _ => (-1, s, tr)

/-! ## Module state -/

/-- The record `struct viva_power_module` (the mutex is seen through the
lock and unlock events). -/
structure viva_power_module where
  boostpulse_fd : Int
  boostpulse_warned : Int
  inited : Int
  deriving DecidableEq, Repr

/-- The static instance of the module. -/
def HAL_MODULE_INFO_SYM : viva_power_module :=
  { boostpulse_fd := -1, boostpulse_warned := 0, inited := 0 }

/-- The file-level statics `freq_num`, `freq_list`, `max_freq`, `nom_freq`. -/
structure Globals where
  freq_num : Int
  freq_list : PtrArray
  max_freq : Option (List Char)
  nom_freq : Option (List Char)

/-- The statics as the loader leaves them: zero and NULL. -/
def Globals.initial : Globals :=
  { freq_num := 0, freq_list := fun _ => none, max_freq := none, nom_freq := none }

/-- The whole program state: module record, statics and trace so far. -/
structure Sys where
  viva : viva_power_module
  g : Globals
  trace : List Event

/-- The function `viva_power_init(module)`.  `freq_buf` is what the stack
buffer holds on entry.  `none` when the tokenizer loop runs out of fuel or a
NULL `nom_freq` reaches `sysfs_write`. -/
def viva_power_init (env : Env) (st : Sys) (freq_buf : List Char) : Option Sys :=
  match sysfs_read env st.trace (some (CPUFREQ_CPU0 ++ "scaling_available_frequencies"))
      (some freq_buf) (MAX_FREQ_NUMBER * 10).toNat with
  | (tmp, buf, tr0) =>
    if tmp ≤ 0 then some { st with trace := tr0 }
    else
      match str_to_tokens buf (some st.g.freq_list) MAX_FREQ_NUMBER with
      | none => none
      | some (n, fl) =>
        let freq_list := fl.getD st.g.freq_list
        let freq_num : Int := n
        if freq_num = 0 then
          some { st with g := { st.g with freq_num := freq_num, freq_list := freq_list },
                         trace := tr0 }
        else
          let max_freq := freq_list (freq_num - 1).toNat
          let tmp1 := if NOM_FREQ_INDEX > freq_num then freq_num else NOM_FREQ_INDEX
          let nom_freq := freq_list (tmp1 - 1).toNat
          match nom_freq with
          | none => none
          | some nom =>
            let tr1 := sysfs_write env tr0 (CPUFREQ_INTERACTIVE ++ "timer_rate") "20000".toList
            let tr2 := sysfs_write env tr1 (CPUFREQ_INTERACTIVE ++ "min_sample_time")
              "60000".toList
            let tr3 := sysfs_write env tr2 (CPUFREQ_INTERACTIVE ++ "hispeed_freq") nom
            let tr4 := sysfs_write env tr3 (CPUFREQ_INTERACTIVE ++ "go_hispeed_load") "60".toList
            let tr5 := sysfs_write env tr4 (CPUFREQ_INTERACTIVE ++ "above_hispeed_delay")
              "100000".toList
            some
              { viva := { st.viva with inited := 1 }
                g := { freq_num := freq_num, freq_list := freq_list,
                       max_freq := max_freq, nom_freq := nom_freq }
                trace := tr5 ++ [Event.alog LogPrio.info "Initialized successfully"] }

/-- The function `boostpulse_open(viva)`: the returned descriptor and the state
after the call. -/
def boostpulse_open (env : Env) (st : Sys) : Int × Sys :=
  let tr0 := st.trace ++ [Event.mutex_lock]
  if st.viva.boostpulse_fd < 0 then
    let fd := env.open_ret tr0 BOOSTPULSE_PATH OFlag.O_WRONLY
    let tr1 := tr0 ++ [Event.sys_open BOOSTPULSE_PATH OFlag.O_WRONLY fd]
    if fd < 0 then
      if st.viva.boostpulse_warned = 0 then
        (fd, { st with
          viva := { st.viva with boostpulse_fd := fd, boostpulse_warned := 1 }
          trace := tr1 ++ [Event.alog LogPrio.error
            ("Error opening " ++ BOOSTPULSE_PATH ++ ": " ++ env.errstr tr1 ++ "\n"),
            Event.mutex_unlock] })
      else
        (fd, { st with viva := { st.viva with boostpulse_fd := fd }
                       trace := tr1 ++ [Event.mutex_unlock] })
    else
      (fd, { st with viva := { st.viva with boostpulse_fd := fd }
                     trace := tr1 ++ [Event.mutex_unlock] })
  else
    (st.viva.boostpulse_fd, { st with trace := tr0 ++ [Event.mutex_unlock] })

/-- The function `viva_power_set_interactive(module, on)`. -/
def viva_power_set_interactive (st : Sys) (_on : Int) : Sys :=
  if st.viva.inited = 0 then st
  else st

/-- Modelled from the spec: the enumeration `power_hint_t` of
`hardware/power.h`, which is not among the sources; the spec describes it as a
closed enumeration of interaction, vsync and other recognised codes. -/
inductive power_hint_t
  | POWER_HINT_VSYNC
  | POWER_HINT_INTERACTION
  | other (code : Int)
  deriving DecidableEq, Repr

/-- The function `viva_power_hint(module, hint, data)`; `data` is the value of
the `void *` argument. -/
def viva_power_hint (env : Env) (st : Sys) (hint : power_hint_t) (_data : Nat) : Sys :=
  if st.viva.inited = 0 then st
  else
    match hint with
    | power_hint_t.POWER_HINT_INTERACTION =>
      match boostpulse_open env st with
      | (fd, st1) =>
        if fd ≥ 0 then
          let len := env.write_ret st1.trace st1.viva.boostpulse_fd ['1']
          let tr1 := st1.trace ++ [Event.sys_write st1.viva.boostpulse_fd ['1'] len]
          if len < 0 then
            { st1 with trace := tr1 ++ [Event.alog LogPrio.error
                ("Error writing to " ++ BOOSTPULSE_PATH ++ ": " ++ env.errstr tr1 ++ "\n")] }
          else { st1 with trace := tr1 }
        else st1
    | power_hint_t.POWER_HINT_VSYNC => st
    | power_hint_t.other _ => st

/-! ## Specification-side vocabulary -/

/-- Space, tab, carriage return or line feed. -/
def isDelim (c : Char) : Bool :=
  c = Char.ofNat 32 || c = Char.ofNat 9 || c = Char.ofNat 13 || c = Char.ofNat 10

/-- The tokens of a string as the specification words them: its maximal
non-empty runs of characters other than space, tab, CR and LF, in order. -/
def specTokens (s : List Char) : List (List Char) :=
  (s.splitOnP isDelim).filter (fun t => !t.isEmpty)

/-- The tokens of a possibly NULL string argument: a NULL pointer has none, a
pointer has those of the C string stored there. -/
def tokensOf : Option (List Char) → List (List Char)
  | none => []
  | some s => specTokens (cstr s)

/-- The token array after the tokens `ts` were stored from index `i` on. -/
def PtrArray.fill (a : PtrArray) : Nat → List (List Char) → PtrArray
  | _, [] => a
  | i, t :: ts => PtrArray.fill (a.store i (some t)) (i + 1) ts

/-- The bytes `strcspn` steps over: neither NUL nor a delimiter. -/
def inTok (c : Char) : Bool := c != NUL && !isDelim c

/-- The bytes `strspn` steps over: delimiters. -/
def inGap (c : Char) : Bool := c != NUL && isDelim c

/-- The `open` calls of a trace, in order: path, mode and returned value. -/
def opensOf (tr : List Event) : List (String × OFlag × Int) :=
  tr.filterMap fun e =>
    match e with
    | Event.sys_open p f r => some (p, f, r)
    | _ => none

/-- The `open` calls of a trace that succeeded (returned a non-negative
descriptor). -/
def okOpensOf (tr : List Event) : List (String × OFlag × Int) :=
  (opensOf tr).filter fun o => decide (0 ≤ o.2.2)

/-- The `write` calls of a trace, in order: descriptor, bytes and returned
value. -/
def writesOf (tr : List Event) : List (Int × List Char × Int) :=
  tr.filterMap fun e =>
    match e with
    | Event.sys_write fd b r => some (fd, b, r)
    | _ => none

/-- The `close` calls of a trace, in order. -/
def closesOf (tr : List Event) : List Int :=
  tr.filterMap fun e =>
    match e with
    | Event.sys_close fd => some fd
    | _ => none

/-- The log lines of a trace, in order. -/
def logsOf (tr : List Event) : List (LogPrio × String) :=
  tr.filterMap fun e =>
    match e with
    | Event.alog p m => some (p, m)
    | _ => none

/-- The frequency table held by the statics: entries `0 .. freq_num - 1` of
`freq_list`. -/
def freqTable (g : Globals) : List (List Char) :=
  (List.range g.freq_num.toNat).filterMap g.freq_list

/-- The value of a token written in decimal digits, `none` for anything else. -/
def decValue (t : List Char) : Option Nat :=
  if t ≠ [] ∧ t.all Char.isDigit then
    some (t.foldl (fun acc c => 10 * acc + (c.toNat - 48)) 0)
  else none

/-- The second-lowest of a list of numbers: the second entry once the list is
sorted in increasing order. -/
def secondLowest (vals : List Nat) : Option Nat :=
  (vals.insertionSort (fun a b => a ≤ b))[1]?

/-- The path of the list of available frequencies. -/
def FREQ_PATH : String := CPUFREQ_CPU0 ++ "scaling_available_frequencies"

/-- The read of the list of available frequencies that opens
`viva_power_init`: the value `sysfs_read` returns, the buffer and the trace
after it. -/
def initRead (env : Env) (tr : List Event) (freq_buf : List Char) :
    Int × Option (List Char) × List Event :=
  sysfs_read env tr (some FREQ_PATH) (some freq_buf) 200

/-- The five governor settings of `viva_power_init`, in program order, with
`nom` standing for `nom_freq`. -/
def governorSettings (nom : List Char) : List (String × List Char) :=
  [ (CPUFREQ_INTERACTIVE ++ "timer_rate", "20000".toList),
    (CPUFREQ_INTERACTIVE ++ "min_sample_time", "60000".toList),
    (CPUFREQ_INTERACTIVE ++ "hispeed_freq", nom),
    (CPUFREQ_INTERACTIVE ++ "go_hispeed_load", "60".toList),
    (CPUFREQ_INTERACTIVE ++ "above_hispeed_delay", "100000".toList) ]

/-- The trace after `sysfs_write` was called for each setting of a list, in
order. -/
def sysfsWrites (env : Env) (tr : List Event) (l : List (String × List Char)) : List Event :=
  l.foldl (fun t pv => sysfs_write env t pv.1 pv.2) tr

/-- The trace after the governor writes of `viva_power_init`. -/
def governorWrites (env : Env) (tr : List Event) (nom : List Char) : List Event :=
  sysfsWrites env tr (governorSettings nom)

/-- The state after `k` sequential calls of `boostpulse_open`. -/
def boostpulse_open_seq (env : Env) (st : Sys) : Nat → Sys
  | 0 => st
  | k + 1 => (boostpulse_open env (boostpulse_open_seq env st k)).2

/-- The state after `k` sequential interaction hints. -/
def interaction_seq (env : Env) (st : Sys) (data : Nat) : Nat → Sys
  | 0 => st
  | k + 1 =>
    viva_power_hint env (interaction_seq env st data k) power_hint_t.POWER_HINT_INTERACTION data

/-! ## Sample environments -/

/-- A world in which every open yields descriptor 3, the frequency file holds
`content`, and every write is complete. -/
def fileEnv (content : String) : Env :=
  { open_ret := fun _ _ _ => 3
    read_ret := fun _ _ n => some (content.toList.take n)
    write_ret := fun _ _ b => b.length
    errstr := fun _ => "" }

/-- A world in which every open yields descriptor 3 and every write stops
after two bytes. -/
def shortWriteEnv : Env :=
  { open_ret := fun _ _ _ => 3
    read_ret := fun _ _ _ => some []
    write_ret := fun _ _ _ => 2
    errstr := fun _ => "" }

/-- A world in which the first open fails and every later one yields
descriptor 7 (the history is still shorter than three events at the first
open). -/
def lateOpenEnv : Env :=
  { open_ret := fun tr _ _ => if tr.length < 3 then -1 else 7
    read_ret := fun _ _ _ => some []
    write_ret := fun _ _ b => b.length
    errstr := fun _ => "Resource temporarily unavailable" }

/-- A world in which no file can be opened. -/
def noFileEnv : Env :=
  { open_ret := fun _ _ _ => -1
    read_ret := fun _ _ _ => none
    write_ret := fun _ _ _ => -1
    errstr := fun _ => "No such file or directory" }

/-- The state of a freshly loaded module, nothing done yet. -/
def Sys.initial : Sys :=
  { viva := HAL_MODULE_INFO_SYM, g := Globals.initial, trace := [] }

/-- A freshly loaded module marked initialised. -/
def Sys.ready : Sys :=
  { viva := { HAL_MODULE_INFO_SYM with inited := 1 }, g := Globals.initial, trace := [] }

/-! ## The tokenizer -/

theorem contains_DELIMS (c : Char) : DELIMS.contains c = isDelim c := by
  rw [Bool.eq_iff_iff]
  simp [DELIMS, isDelim, or_assoc]

theorem strtok_r_DELIMS (s : List Char) :
    strtok_r none DELIMS s =
      (match s.dropWhile inGap with
        | [] => (none, s.dropWhile inGap)
        | c :: _ =>
          if c = NUL then (none, s.dropWhile inGap)
          else
            match (s.dropWhile inGap).dropWhile inTok with
            | [] => (some ((s.dropWhile inGap).takeWhile inTok), [])
            | d :: r =>
              if d = NUL then (some ((s.dropWhile inGap).takeWhile inTok), d :: r)
              else (some ((s.dropWhile inGap).takeWhile inTok), r)) := by
  have h1 : (fun c => c != NUL && DELIMS.contains c) = inGap := by
    funext c; rw [contains_DELIMS]; rfl
  have h2 : (fun c => c != NUL && !DELIMS.contains c) = inTok := by
    funext c; rw [contains_DELIMS]; rfl
  unfold strtok_r
  simp only [h1, h2]
  cases h : s.dropWhile inGap with
  | nil => rfl
  | cons c r =>
    simp only
    split
    · rfl
    · cases h3 : List.dropWhile inTok (c :: r) with
      | nil => rfl
      | cons d r1 => rfl

theorem splitOnP_cstr (r : List Char) :
    (cstr r).splitOnP isDelim =
      r.takeWhile inTok ::
        (match r.dropWhile inTok with
          | [] => []
          | d :: r1 => if d = NUL then [] else (cstr r1).splitOnP isDelim) := by
  induction r with
  | nil => simp [cstr]
  | cons c r ih =>
    by_cases hc : c = NUL
    · subst hc
      simp [cstr, inTok]
    · by_cases hd : isDelim c = true
      · simp [cstr, List.takeWhile_cons, List.dropWhile_cons, hc, inTok, hd]
      · simp only [Bool.not_eq_true] at hd
        have : cstr (c :: r) = c :: cstr r := by simp [cstr, List.takeWhile_cons, hc]
        rw [this, List.splitOnP_cons, ih]
        simp [List.takeWhile_cons, List.dropWhile_cons, hc, inTok, hd, List.modifyHead]

theorem cstr_takeWhile_inTok (l : List Char) : cstr (l.takeWhile inTok) = l.takeWhile inTok := by
  induction l with
  | nil => rfl
  | cons c r ih =>
    by_cases h : inTok c = true
    · have hc : (c != NUL) = true := by
        simp only [inTok, Bool.and_eq_true] at h; exact h.1
      simp only [List.takeWhile_cons, h, if_true, cstr, hc] at ih ⊢
      rw [ih]
    · simp [List.takeWhile_cons, h, cstr]

theorem length_dropWhile_le (p : Char → Bool) (l : List Char) :
    (l.dropWhile p).length ≤ l.length := by
  induction l with
  | nil => simp
  | cons c r ih =>
    rw [List.dropWhile_cons]
    split
    · exact Nat.le_succ_of_le ih
    · exact Nat.le_refl _

theorem strtok_r_tokens (s : List Char) :
    match strtok_r none DELIMS s with
    | (none, _) => specTokens (cstr s) = []
    | (some t, s1) =>
      specTokens (cstr s) = strdup t :: specTokens (cstr s1) ∧ s1.length < s.length := by
  induction s with
  | nil => simp [strtok_r_DELIMS, specTokens, cstr]
  | cons c r ih =>
    by_cases hc : c = NUL
    · subst hc
      have : List.dropWhile inGap (NUL :: r) = NUL :: r := by
        simp [List.dropWhile_cons, inGap]
      rw [strtok_r_DELIMS, this]
      simp [specTokens, cstr]
    · by_cases hd : isDelim c = true
      · have h1 : strtok_r none DELIMS (c :: r) = strtok_r none DELIMS r := by
          have : List.dropWhile inGap (c :: r) = List.dropWhile inGap r := by
            simp [List.dropWhile_cons, inGap, hc, hd]
          rw [strtok_r_DELIMS, strtok_r_DELIMS r, this]
        have h2 : specTokens (cstr (c :: r)) = specTokens (cstr r) := by
          have : cstr (c :: r) = c :: cstr r := by simp [cstr, List.takeWhile_cons, hc]
          rw [this]
          simp [specTokens, hd]
        rw [h1, h2]
        revert ih
        cases strtok_r none DELIMS r with
        | mk a b =>
          cases a with
          | none => exact id
          | some t =>
            intro ih
            exact ⟨ih.1, Nat.lt_succ_of_lt ih.2⟩
      · simp only [Bool.not_eq_true] at hd
        have hg : List.dropWhile inGap (c :: r) = c :: r := by
          simp [List.dropWhile_cons, inGap, hd]
        have ht : inTok c = true := by simp [inTok, hc, hd]
        have htk : List.takeWhile inTok (c :: r) = c :: List.takeWhile inTok r := by
          simp [List.takeWhile_cons, ht]
        have hdr : List.dropWhile inTok (c :: r) = List.dropWhile inTok r := by
          simp [List.dropWhile_cons, ht]
        have hsp := splitOnP_cstr (c :: r)
        rw [htk, hdr] at hsp
        have hlen := length_dropWhile_le inTok r
        have hdup : strdup (c :: List.takeWhile inTok r) = c :: List.takeWhile inTok r := by
          have := cstr_takeWhile_inTok (c :: r)
          rw [htk] at this
          exact this
        rw [strtok_r_DELIMS, hg]
        simp only [hc, if_false, htk, hdr]
        cases hrest : List.dropWhile inTok r with
        | nil =>
          rw [hrest] at hsp
          simp only [specTokens, hsp, hdup]
          simp [cstr]
        | cons d r1 =>
          rw [hrest] at hsp hlen
          simp only [List.length_cons] at hlen
          by_cases hdn : d = NUL
          · simp only [hdn, if_true] at hsp ⊢
            simp only [specTokens, hsp, hdup]
            refine ⟨?_, ?_⟩
            · simp [cstr]
            · simp only [List.length_cons]; omega
          · simp only [hdn, if_false] at hsp ⊢
            simp only [specTokens, hsp, hdup]
            refine ⟨?_, ?_⟩
            · simp
            · simp only [List.length_cons]; omega

theorem str_to_tokens_loop_spec (max : Int) :
    ∀ (fuel : Nat) (sp : Option (List Char)) (pos : List Char) (token : PtrArray) (idx : Nat),
      (sp.getD pos).length < fuel → (idx : Int) < max →
      str_to_tokens_loop fuel sp pos token idx max =
        some (idx + min (max - idx).toNat (specTokens (cstr (sp.getD pos))).length,
          token.fill idx ((specTokens (cstr (sp.getD pos))).take (max - idx).toNat)) := by
  intro fuel
  induction fuel with
  | zero => intro sp pos token idx h; exact absurd h (Nat.not_lt_zero _)
  | succ fuel ih =>
    intro sp pos token idx hlen hidx
    have hs : strtok_r sp DELIMS pos = strtok_r none DELIMS (sp.getD pos) := by
      cases sp <;> rfl
    have htok := strtok_r_tokens (sp.getD pos)
    unfold str_to_tokens_loop
    rw [hs]
    revert htok
    cases strtok_r none DELIMS (sp.getD pos) with
    | mk a s1 =>
      cases a with
      | none =>
        intro htok
        simp only at htok
        simp [htok, PtrArray.fill]
      | some t =>
        intro htok
        simp only at htok
        obtain ⟨ht, hl⟩ := htok
        simp only
        by_cases hlt : ((idx + 1 : Nat) : Int) < max
        · rw [if_pos hlt, ih none s1 _ (idx + 1) (by simp only [Option.getD_none]; omega) hlt]
          have hk : (max - (idx : Int)).toNat = (max - ((idx + 1 : Nat) : Int)).toNat + 1 := by
            omega
          rw [ht, hk, List.take_succ_cons, PtrArray.fill]
          simp only [Option.getD_none, List.length_cons, Nat.add_min_add_right]
          congr 2
          omega
        · rw [if_neg hlt]
          have hk : (max - (idx : Int)).toNat = 1 := by omega
          rw [ht, hk]
          simp [PtrArray.fill]

theorem PtrArray.fill_apply (ts : List (List Char)) :
    ∀ (a : PtrArray) (i j : Nat),
      PtrArray.fill a i ts j = if i ≤ j ∧ j < i + ts.length then ts[j - i]? else a j := by
  induction ts with
  | nil =>
    intro a i j
    have : ¬ (i ≤ j ∧ j < i + ([] : List (List Char)).length) := by
      simp only [List.length_nil]; omega
    rw [if_neg this, PtrArray.fill]
  | cons t ts ih =>
    intro a i j
    rw [PtrArray.fill, ih]
    by_cases h1 : i + 1 ≤ j ∧ j < i + 1 + ts.length
    · have h2 : i ≤ j ∧ j < i + (t :: ts).length := by
        simp only [List.length_cons]; omega
      rw [if_pos h1, if_pos h2]
      have : j - i = (j - (i + 1)) + 1 := by omega
      rw [this, List.getElem?_cons_succ]
    · rw [if_neg h1]
      by_cases h3 : j = i
      · subst h3
        simp [PtrArray.store]
      · have h2 : ¬ (i ≤ j ∧ j < i + (t :: ts).length) := by
          simp only [List.length_cons]; omega
        rw [if_neg h2]
        simp [PtrArray.store, h3]

/-- The result of `str_to_tokens` on a non-NULL token array, in closed form. -/
theorem str_to_tokens_eq (str : Option (List Char)) (out : PtrArray) (c : Int) (hc : 0 ≤ c) :
    str_to_tokens str (some out) c =
      some (min c.toNat (tokensOf str).length,
        some (out.fill 0 ((tokensOf str).take c.toNat))) := by
  cases str with
  | none => simp [str_to_tokens, tokensOf, PtrArray.fill]
  | some s =>
    by_cases h0 : c = 0
    · subst h0
      simp [str_to_tokens, PtrArray.fill]
    · have hpos : ((0 : Nat) : Int) < c := by omega
      have hloop := str_to_tokens_loop_spec c (s.length + 1) (some s) [] out 0
        (by simp) hpos
      simp only [Option.getD_some, Nat.cast_zero, sub_zero, Nat.zero_add] at hloop
      simp only [str_to_tokens, h0, if_false, hloop, tokensOf]

/-- C6: for every string argument `str` (NULL or a pointer), every token array
`out` and every cap `c ≥ 0`, `str_to_tokens(str, out, c)` returns `min(c, n)`,
where `n` is the number of tokens of `str` (maximal non-empty runs of characters
other than space, tab, CR, LF; none for NULL), stores the first `min(c, n)`
tokens in order at `out[0 .. min(c, n) - 1]` and leaves the rest of `out` as it
was. -/
theorem str_to_tokens_first_tokens (str : Option (List Char)) (out : PtrArray) (c : Int)
    (hc : 0 ≤ c) :
    ∃ out1 : PtrArray,
      str_to_tokens str (some out) c = some (min c.toNat (tokensOf str).length, some out1) ∧
      (∀ i, i < min c.toNat (tokensOf str).length → out1 i = (tokensOf str)[i]?) ∧
      (∀ i, min c.toNat (tokensOf str).length ≤ i → out1 i = out i) := by
  refine ⟨out.fill 0 ((tokensOf str).take c.toNat), str_to_tokens_eq str out c hc, ?_, ?_⟩
  · intro i hi
    rw [PtrArray.fill_apply]
    simp only [List.length_take, Nat.zero_le, true_and, Nat.zero_add, Nat.sub_zero]
    rw [if_pos hi, List.getElem?_take]
    simp only [ite_eq_left_iff]
    omega
  · intro i hi
    rw [PtrArray.fill_apply]
    simp only [List.length_take, Nat.zero_le, true_and, Nat.zero_add]
    rw [if_neg (by omega)]

/-- C6 (instance): a two-token string with the cap of `viva_power_init`. -/
theorem str_to_tokens_first_tokens_witness :
    (0 : Int) ≤ 20 ∧
    ∃ out1 : PtrArray,
      str_to_tokens (some "300000 600000\n".toList) (some (fun _ => none)) 20 =
        some (min (20 : Int).toNat (tokensOf (some "300000 600000\n".toList)).length,
          some out1) ∧
      (∀ i, i < min (20 : Int).toNat (tokensOf (some "300000 600000\n".toList)).length →
        out1 i = (tokensOf (some "300000 600000\n".toList))[i]?) ∧
      (∀ i, min (20 : Int).toNat (tokensOf (some "300000 600000\n".toList)).length ≤ i →
        out1 i = (fun _ => none) i) :=
  ⟨by decide, str_to_tokens_first_tokens (some "300000 600000\n".toList) (fun _ => none) 20
    (by decide)⟩

/-! ## Traces -/

@[simp] theorem opensOf_append (a b : List Event) : opensOf (a ++ b) = opensOf a ++ opensOf b := by
  simp [opensOf, List.filterMap_append]

@[simp] theorem writesOf_append (a b : List Event) :
    writesOf (a ++ b) = writesOf a ++ writesOf b := by
  simp [writesOf, List.filterMap_append]

@[simp] theorem closesOf_append (a b : List Event) :
    closesOf (a ++ b) = closesOf a ++ closesOf b := by
  simp [closesOf, List.filterMap_append]

@[simp] theorem logsOf_append (a b : List Event) : logsOf (a ++ b) = logsOf a ++ logsOf b := by
  simp [logsOf, List.filterMap_append]

/-- What `sysfs_write` appends to the trace. -/
theorem sysfs_write_trace (env : Env) (tr : List Event) (path : String) (s : List Char) :
    sysfs_write env tr path s =
      tr ++
        (if env.open_ret tr path OFlag.O_WRONLY < 0 then
          [Event.sys_open path OFlag.O_WRONLY (env.open_ret tr path OFlag.O_WRONLY),
           Event.alog LogPrio.error ("Error opening " ++ path ++ ": " ++
              env.errstr (tr ++ [Event.sys_open path OFlag.O_WRONLY
                (env.open_ret tr path OFlag.O_WRONLY)]) ++ "\n")]
        else
          [Event.sys_open path OFlag.O_WRONLY (env.open_ret tr path OFlag.O_WRONLY),
           Event.sys_write (env.open_ret tr path OFlag.O_WRONLY) (cstr s)
              (env.write_ret (tr ++ [Event.sys_open path OFlag.O_WRONLY
                (env.open_ret tr path OFlag.O_WRONLY)])
                (env.open_ret tr path OFlag.O_WRONLY) (cstr s))] ++
          (if env.write_ret (tr ++ [Event.sys_open path OFlag.O_WRONLY
                (env.open_ret tr path OFlag.O_WRONLY)])
                (env.open_ret tr path OFlag.O_WRONLY) (cstr s) < 0 then
            [Event.alog LogPrio.error ("Error writing to " ++ path ++ ": " ++
              env.errstr (tr ++ [Event.sys_open path OFlag.O_WRONLY
                  (env.open_ret tr path OFlag.O_WRONLY),
                Event.sys_write (env.open_ret tr path OFlag.O_WRONLY) (cstr s)
                  (env.write_ret (tr ++ [Event.sys_open path OFlag.O_WRONLY
                    (env.open_ret tr path OFlag.O_WRONLY)])
                    (env.open_ret tr path OFlag.O_WRONLY) (cstr s))]) ++ "\n")]
          else []) ++
          [Event.sys_close (env.open_ret tr path OFlag.O_WRONLY)]) := by
  have hc : s.take (strlen s) = cstr s := by
    simp only [strlen, cstr]
    induction s with
    | nil => rfl
    | cons c r ih =>
      rw [List.takeWhile_cons]
      split
      · simp only [List.length_cons, List.take_succ_cons, ih]
      · rfl
  unfold sysfs_write
  simp only [hc]
  split
  · simp
  · split <;> simp

theorem sysfs_write_extends (env : Env) (tr : List Event) (path : String) (s : List Char) :
    ∃ new, sysfs_write env tr path s = tr ++ new ∧
      opensOf new = [(path, OFlag.O_WRONLY, env.open_ret tr path OFlag.O_WRONLY)] ∧
      (∃ len, writesOf new =
        if env.open_ret tr path OFlag.O_WRONLY < 0 then []
        else [(env.open_ret tr path OFlag.O_WRONLY, cstr s, len)]) := by
  refine ⟨_, sysfs_write_trace env tr path s, ?_, ?_⟩
  · split
    · simp [opensOf]
    · split <;> simp [opensOf]
  · refine ⟨env.write_ret (tr ++ [Event.sys_open path OFlag.O_WRONLY
      (env.open_ret tr path OFlag.O_WRONLY)]) (env.open_ret tr path OFlag.O_WRONLY) (cstr s), ?_⟩
    split
    · simp [writesOf]
    · split <;> simp [writesOf]

/-- C9 (as amended): `sysfs_write(path, s)` opens `path` write-only exactly
once.  If the open fails it logs the open error, writes nothing and closes
nothing.  If the open succeeds it performs exactly one write, of the bytes of
`s`, to the descriptor it opened, logs an error exactly when that write returned
a negative value (a short write is not logged), and closes the descriptor it
opened whatever the write returned. -/
theorem sysfs_write_effects (env : Env) (tr : List Event) (path : String) (s : List Char) :
    ∃ new : List Event, sysfs_write env tr path s = tr ++ new ∧
      opensOf new = [(path, OFlag.O_WRONLY, env.open_ret tr path OFlag.O_WRONLY)] ∧
      if env.open_ret tr path OFlag.O_WRONLY < 0 then
        writesOf new = [] ∧ closesOf new = [] ∧
        ∃ msg, logsOf new = [(LogPrio.error, "Error opening " ++ path ++ ": " ++ msg ++ "\n")]
      else
        ∃ len : Int,
          writesOf new = [(env.open_ret tr path OFlag.O_WRONLY, cstr s, len)] ∧
          closesOf new = [env.open_ret tr path OFlag.O_WRONLY] ∧
          (if len < 0 then
            ∃ msg, logsOf new =
              [(LogPrio.error, "Error writing to " ++ path ++ ": " ++ msg ++ "\n")]
          else logsOf new = []) := by
  refine ⟨_, sysfs_write_trace env tr path s, ?_, ?_⟩
  · split
    · simp [opensOf]
    · split <;> simp [opensOf]
  · by_cases h : env.open_ret tr path OFlag.O_WRONLY < 0
    · simp only [h, if_true]
      exact ⟨by simp [writesOf], by simp [closesOf], _, rfl⟩
    · simp only [h, if_false]
      refine ⟨env.write_ret (tr ++ [Event.sys_open path OFlag.O_WRONLY
        (env.open_ret tr path OFlag.O_WRONLY)]) (env.open_ret tr path OFlag.O_WRONLY) (cstr s),
        ?_, ?_, ?_⟩
      · split <;> simp [writesOf]
      · split <;> simp [closesOf]
      · split
        · exact ⟨_, rfl⟩
        · simp [logsOf]

/-- C9 (counterexample): with every write stopping after two bytes, writing
`"20000"` to `timer_rate` is a short write (2 of 5 bytes) and nothing is
logged. -/
theorem sysfs_write_short_write_not_logged :
    writesOf (sysfs_write shortWriteEnv [] (CPUFREQ_INTERACTIVE ++ "timer_rate") "20000".toList)
        = [(3, "20000".toList, 2)] ∧
      (2 : Int) < strlen "20000".toList ∧
      logsOf (sysfs_write shortWriteEnv [] (CPUFREQ_INTERACTIVE ++ "timer_rate")
        "20000".toList) = [] := by
  decide

/-! ## The boost-pulse descriptor and the hint dispatcher -/

theorem okOpensOf_append (a b : List Event) :
    okOpensOf (a ++ b) = okOpensOf a ++ okOpensOf b := by
  simp [okOpensOf]

/-- A call of `boostpulse_open` with a cached descriptor. -/
theorem boostpulse_open_cached (env : Env) (st : Sys) (h : 0 ≤ st.viva.boostpulse_fd) :
    boostpulse_open env st =
      (st.viva.boostpulse_fd,
        { st with trace := st.trace ++ [Event.mutex_lock, Event.mutex_unlock] }) := by
  unfold boostpulse_open
  rw [if_neg (by omega)]
  simp

/-- A call of `boostpulse_open` without a cached descriptor. -/
theorem boostpulse_open_fresh (env : Env) (st : Sys) (h : st.viva.boostpulse_fd < 0) :
    boostpulse_open env st =
      (env.open_ret (st.trace ++ [Event.mutex_lock]) BOOSTPULSE_PATH OFlag.O_WRONLY,
        { st with
          viva :=
            { st.viva with
              boostpulse_fd :=
                env.open_ret (st.trace ++ [Event.mutex_lock]) BOOSTPULSE_PATH OFlag.O_WRONLY
              boostpulse_warned :=
                if env.open_ret (st.trace ++ [Event.mutex_lock]) BOOSTPULSE_PATH OFlag.O_WRONLY < 0
                    ∧ st.viva.boostpulse_warned = 0 then 1
                else st.viva.boostpulse_warned }
          trace :=
            st.trace ++ [Event.mutex_lock,
              Event.sys_open BOOSTPULSE_PATH OFlag.O_WRONLY
                (env.open_ret (st.trace ++ [Event.mutex_lock]) BOOSTPULSE_PATH OFlag.O_WRONLY)] ++
            (if env.open_ret (st.trace ++ [Event.mutex_lock]) BOOSTPULSE_PATH OFlag.O_WRONLY < 0
                ∧ st.viva.boostpulse_warned = 0 then
              [Event.alog LogPrio.error ("Error opening " ++ BOOSTPULSE_PATH ++ ": " ++
                env.errstr (st.trace ++ [Event.mutex_lock,
                  Event.sys_open BOOSTPULSE_PATH OFlag.O_WRONLY
                    (env.open_ret (st.trace ++ [Event.mutex_lock]) BOOSTPULSE_PATH
                      OFlag.O_WRONLY)]) ++ "\n")]
            else []) ++ [Event.mutex_unlock] }) := by
  unfold boostpulse_open
  rw [if_pos h]
  by_cases h1 : env.open_ret (st.trace ++ [Event.mutex_lock]) BOOSTPULSE_PATH OFlag.O_WRONLY < 0
  · by_cases h2 : st.viva.boostpulse_warned = 0
    · simp [h1, h2]
    · simp [h1, h2]
  · simp [h1]

theorem boostpulse_open_fd (env : Env) (st : Sys) :
    (boostpulse_open env st).2.viva.boostpulse_fd = (boostpulse_open env st).1 := by
  by_cases h : st.viva.boostpulse_fd < 0
  · rw [boostpulse_open_fresh env st h]
  · rw [boostpulse_open_cached env st (by omega)]

theorem boostpulse_open_seq_cached (env : Env) (st : Sys) (i : Nat)
    (h : 0 ≤ (boostpulse_open_seq env st i).viva.boostpulse_fd) (d : Nat) :
    (boostpulse_open_seq env st (i + d)).viva.boostpulse_fd =
      (boostpulse_open_seq env st i).viva.boostpulse_fd := by
  induction d with
  | zero => rfl
  | succ d ih =>
    show (boostpulse_open env (boostpulse_open_seq env st (i + d))).2.viva.boostpulse_fd = _
    rw [boostpulse_open_cached env _ (by rw [ih]; exact h)]
    exact ih

theorem boostpulse_open_seq_okOpens (env : Env) (st : Sys) (k : Nat) :
    (okOpensOf (boostpulse_open_seq env st k).trace).length ≤ (okOpensOf st.trace).length + 1 ∧
      ((boostpulse_open_seq env st k).viva.boostpulse_fd < 0 →
        (okOpensOf (boostpulse_open_seq env st k).trace).length = (okOpensOf st.trace).length) := by
  induction k with
  | zero => exact ⟨Nat.le_succ _, fun _ => rfl⟩
  | succ k ih =>
    show (okOpensOf (boostpulse_open env (boostpulse_open_seq env st k)).2.trace).length ≤ _ ∧
      ((boostpulse_open env (boostpulse_open_seq env st k)).2.viva.boostpulse_fd < 0 →
        (okOpensOf (boostpulse_open env (boostpulse_open_seq env st k)).2.trace).length = _)
    by_cases h : (boostpulse_open_seq env st k).viva.boostpulse_fd < 0
    · rw [boostpulse_open_fresh env _ h]
      have hk := ih.2 h
      simp only [okOpensOf_append, List.length_append, hk]
      by_cases h1 : env.open_ret ((boostpulse_open_seq env st k).trace ++ [Event.mutex_lock])
          BOOSTPULSE_PATH OFlag.O_WRONLY < 0
      · have h2 : ¬ (0 ≤ env.open_ret ((boostpulse_open_seq env st k).trace ++
            [Event.mutex_lock]) BOOSTPULSE_PATH OFlag.O_WRONLY) := by omega
        constructor
        · split <;> simp [okOpensOf, opensOf, h2]
        · intro _
          split <;> simp [okOpensOf, opensOf, h2]
      · have h2 : 0 ≤ env.open_ret ((boostpulse_open_seq env st k).trace ++
            [Event.mutex_lock]) BOOSTPULSE_PATH OFlag.O_WRONLY := by omega
        constructor
        · simp [okOpensOf, opensOf, h2, h1]
        · intro h3
          exact absurd h3 h1
    · rw [boostpulse_open_cached env _ (by omega)]
      simp only [okOpensOf_append, List.length_append]
      constructor
      · have := ih.1
        simp [okOpensOf, opensOf]
        exact this
      · intro h3
        exact absurd h3 h

theorem boostpulse_open_seq_later (env : Env) (st : Sys) (i j : Nat) (hij : i < j)
    (h : 0 ≤ (boostpulse_open_seq env st (i + 1)).viva.boostpulse_fd) :
    (boostpulse_open_seq env st j).viva.boostpulse_fd =
        (boostpulse_open_seq env st (i + 1)).viva.boostpulse_fd ∧
      (boostpulse_open env (boostpulse_open_seq env st j)).1 =
        (boostpulse_open_seq env st (i + 1)).viva.boostpulse_fd ∧
      opensOf (boostpulse_open_seq env st (j + 1)).trace =
        opensOf (boostpulse_open_seq env st j).trace := by
  have hj : (boostpulse_open_seq env st j).viva.boostpulse_fd =
      (boostpulse_open_seq env st (i + 1)).viva.boostpulse_fd := by
    obtain ⟨d, rfl⟩ : ∃ d, j = i + 1 + d := ⟨j - (i + 1), by omega⟩
    exact boostpulse_open_seq_cached env st (i + 1) h d
  have hc := boostpulse_open_cached env (boostpulse_open_seq env st j) (by rw [hj]; exact h)
  refine ⟨hj, ?_, ?_⟩
  · rw [hc]
    exact hj
  · show opensOf (boostpulse_open env (boostpulse_open_seq env st j)).2.trace = _
    rw [hc]
    simp [opensOf]

/-- Starting without a cached descriptor, after `k` calls either no open has
succeeded and none is cached, or exactly one has and its result is cached. -/
theorem boostpulse_open_seq_inv (env : Env) (st : Sys) (h : st.viva.boostpulse_fd < 0)
    (k : Nat) :
    ((boostpulse_open_seq env st k).viva.boostpulse_fd < 0 ∧
        okOpensOf (boostpulse_open_seq env st k).trace = okOpensOf st.trace) ∨
      ∃ r : Int, 0 ≤ r ∧
        okOpensOf (boostpulse_open_seq env st k).trace =
          okOpensOf st.trace ++ [(BOOSTPULSE_PATH, OFlag.O_WRONLY, r)] ∧
        (boostpulse_open_seq env st k).viva.boostpulse_fd = r := by
  induction k with
  | zero => exact Or.inl ⟨h, rfl⟩
  | succ k ih =>
    show ((boostpulse_open env (boostpulse_open_seq env st k)).2.viva.boostpulse_fd < 0 ∧
        okOpensOf (boostpulse_open env (boostpulse_open_seq env st k)).2.trace = _) ∨
      ∃ r : Int, 0 ≤ r ∧
        okOpensOf (boostpulse_open env (boostpulse_open_seq env st k)).2.trace = _ ∧
        (boostpulse_open env (boostpulse_open_seq env st k)).2.viva.boostpulse_fd = r
    rcases ih with ⟨hneg, hok⟩ | ⟨r, hr, hok, hfd⟩
    · rw [boostpulse_open_fresh env _ hneg]
      simp only [okOpensOf_append, hok]
      by_cases h1 : env.open_ret ((boostpulse_open_seq env st k).trace ++ [Event.mutex_lock])
          BOOSTPULSE_PATH OFlag.O_WRONLY < 0
      · have h2 : ¬ (0 ≤ env.open_ret ((boostpulse_open_seq env st k).trace ++
            [Event.mutex_lock]) BOOSTPULSE_PATH OFlag.O_WRONLY) := by omega
        refine Or.inl ⟨h1, ?_⟩
        split <;> simp [okOpensOf, opensOf, h2]
      · have h2 : 0 ≤ env.open_ret ((boostpulse_open_seq env st k).trace ++
            [Event.mutex_lock]) BOOSTPULSE_PATH OFlag.O_WRONLY := by omega
        refine Or.inr ⟨_, h2, ?_, rfl⟩
        simp [okOpensOf, opensOf, h2, h1]
    · rw [boostpulse_open_cached env _ (by rw [hfd]; exact hr)]
      refine Or.inr ⟨r, hr, ?_, hfd⟩
      simp only [okOpensOf_append, hok]
      simp [okOpensOf, opensOf]

/-- C7: over any number of sequential `boostpulse_open` calls on one module
state.  A call made without a cached descriptor opens the boost-pulse path
write-only exactly once and returns and caches exactly what that open
returned; if that was a success, every later call returns that same descriptor,
the one the open yielded, and performs no open.  Starting without a cached
descriptor (in particular from `boostpulse_fd = -1`), after any number of calls
either no open has succeeded, or exactly one has, and the descriptor it yielded
is the cached one and the one the next call returns.  So at most one open
succeeds over the whole sequence.  More generally, once a call has returned a
non-negative descriptor every later call returns it and performs no open; and
a call on a state whose `boostpulse_fd` is non-negative returns it, takes and
releases the lock, and leaves the module record and the statics unchanged. -/
theorem boostpulse_open_memoized (env : Env) (st : Sys) :
    (∀ i j : Nat, i < j → 0 ≤ (boostpulse_open env (boostpulse_open_seq env st i)).1 →
      (boostpulse_open env (boostpulse_open_seq env st j)).1 =
          (boostpulse_open env (boostpulse_open_seq env st i)).1 ∧
        opensOf (boostpulse_open_seq env st (j + 1)).trace =
          opensOf (boostpulse_open_seq env st j).trace) ∧
    (∀ k : Nat, (okOpensOf (boostpulse_open_seq env st k).trace).length ≤
      (okOpensOf st.trace).length + 1) ∧
    (0 ≤ st.viva.boostpulse_fd →
      (boostpulse_open env st).1 = st.viva.boostpulse_fd ∧
      (boostpulse_open env st).2.viva = st.viva ∧
      (boostpulse_open env st).2.g = st.g ∧
      (boostpulse_open env st).2.trace =
        st.trace ++ [Event.mutex_lock, Event.mutex_unlock]) ∧
    (∀ i : Nat, (boostpulse_open_seq env st i).viva.boostpulse_fd < 0 →
      opensOf (boostpulse_open_seq env st (i + 1)).trace =
        opensOf (boostpulse_open_seq env st i).trace ++
          [(BOOSTPULSE_PATH, OFlag.O_WRONLY,
            env.open_ret ((boostpulse_open_seq env st i).trace ++ [Event.mutex_lock])
              BOOSTPULSE_PATH OFlag.O_WRONLY)] ∧
      (boostpulse_open env (boostpulse_open_seq env st i)).1 =
        env.open_ret ((boostpulse_open_seq env st i).trace ++ [Event.mutex_lock])
          BOOSTPULSE_PATH OFlag.O_WRONLY ∧
      (boostpulse_open_seq env st (i + 1)).viva.boostpulse_fd =
        env.open_ret ((boostpulse_open_seq env st i).trace ++ [Event.mutex_lock])
          BOOSTPULSE_PATH OFlag.O_WRONLY ∧
      (0 ≤ env.open_ret ((boostpulse_open_seq env st i).trace ++ [Event.mutex_lock])
          BOOSTPULSE_PATH OFlag.O_WRONLY →
        ∀ j : Nat, i < j →
          (boostpulse_open env (boostpulse_open_seq env st j)).1 =
            env.open_ret ((boostpulse_open_seq env st i).trace ++ [Event.mutex_lock])
              BOOSTPULSE_PATH OFlag.O_WRONLY ∧
          opensOf (boostpulse_open_seq env st (j + 1)).trace =
            opensOf (boostpulse_open_seq env st j).trace)) ∧
    (st.viva.boostpulse_fd < 0 →
      ∀ k : Nat,
        ((boostpulse_open_seq env st k).viva.boostpulse_fd < 0 ∧
          (boostpulse_open env (boostpulse_open_seq env st k)).1 =
            env.open_ret ((boostpulse_open_seq env st k).trace ++ [Event.mutex_lock])
              BOOSTPULSE_PATH OFlag.O_WRONLY ∧
          okOpensOf (boostpulse_open_seq env st k).trace = okOpensOf st.trace) ∨
        ∃ r : Int, 0 ≤ r ∧
          okOpensOf (boostpulse_open_seq env st k).trace =
            okOpensOf st.trace ++ [(BOOSTPULSE_PATH, OFlag.O_WRONLY, r)] ∧
          (boostpulse_open_seq env st k).viva.boostpulse_fd = r ∧
          (boostpulse_open env (boostpulse_open_seq env st k)).1 = r) := by
  refine ⟨?_, fun k => (boostpulse_open_seq_okOpens env st k).1, ?_, ?_, ?_⟩
  · intro i j hij hi
    have hfd : (boostpulse_open_seq env st (i + 1)).viva.boostpulse_fd =
        (boostpulse_open env (boostpulse_open_seq env st i)).1 :=
      boostpulse_open_fd env _
    have hl := boostpulse_open_seq_later env st i j hij (by rw [hfd]; exact hi)
    rw [hfd] at hl
    exact ⟨hl.2.1, hl.2.2⟩
  · intro h
    rw [boostpulse_open_cached env st h]
    exact ⟨rfl, rfl, rfl, rfl⟩
  · intro i hneg
    have hfr := boostpulse_open_fresh env (boostpulse_open_seq env st i) hneg
    have hret : (boostpulse_open env (boostpulse_open_seq env st i)).1 =
        env.open_ret ((boostpulse_open_seq env st i).trace ++ [Event.mutex_lock])
          BOOSTPULSE_PATH OFlag.O_WRONLY := by rw [hfr]
    have hfd : (boostpulse_open_seq env st (i + 1)).viva.boostpulse_fd =
        env.open_ret ((boostpulse_open_seq env st i).trace ++ [Event.mutex_lock])
          BOOSTPULSE_PATH OFlag.O_WRONLY := by
      rw [← hret]
      exact boostpulse_open_fd env _
    refine ⟨?_, hret, hfd, ?_⟩
    · show opensOf (boostpulse_open env (boostpulse_open_seq env st i)).2.trace = _
      rw [hfr]
      simp only [opensOf_append]
      split <;> simp [opensOf]
    · intro hr j hij
      have hl := boostpulse_open_seq_later env st i j hij (by rw [hfd]; exact hr)
      rw [hfd] at hl
      exact ⟨hl.2.1, hl.2.2⟩
  · intro h k
    rcases boostpulse_open_seq_inv env st h k with ⟨hneg, hok⟩ | ⟨r, hr, hok, hfd⟩
    · refine Or.inl ⟨hneg, ?_, hok⟩
      rw [boostpulse_open_fresh env _ hneg]
    · refine Or.inr ⟨r, hr, hok, hfd, ?_⟩
      rw [boostpulse_open_cached env _ (by rw [hfd]; exact hr)]
      exact hfd

/-- C7 (instance): the freshly loaded module, `boostpulse_fd = -1`, in a world
where the first open fails and every later one yields descriptor 7: after three
calls the one successful open is that of the boost-pulse path with result 7,
and the fourth call returns 7. -/
theorem boostpulse_open_memoized_witness :
    Sys.initial.viva.boostpulse_fd < 0 ∧
    (boostpulse_open_seq lateOpenEnv Sys.initial 1).viva.boostpulse_fd < 0 ∧
    (boostpulse_open lateOpenEnv (boostpulse_open_seq lateOpenEnv Sys.initial 1)).1 = 7 ∧
    (boostpulse_open lateOpenEnv (boostpulse_open_seq lateOpenEnv Sys.initial 3)).1 = 7 ∧
    opensOf (boostpulse_open_seq lateOpenEnv Sys.initial 4).trace =
      opensOf (boostpulse_open_seq lateOpenEnv Sys.initial 3).trace ∧
    (((boostpulse_open_seq lateOpenEnv Sys.initial 3).viva.boostpulse_fd < 0 ∧
        (boostpulse_open lateOpenEnv (boostpulse_open_seq lateOpenEnv Sys.initial 3)).1 =
          lateOpenEnv.open_ret ((boostpulse_open_seq lateOpenEnv Sys.initial 3).trace ++
            [Event.mutex_lock]) BOOSTPULSE_PATH OFlag.O_WRONLY ∧
        okOpensOf (boostpulse_open_seq lateOpenEnv Sys.initial 3).trace =
          okOpensOf Sys.initial.trace) ∨
      ∃ r : Int, 0 ≤ r ∧
        okOpensOf (boostpulse_open_seq lateOpenEnv Sys.initial 3).trace =
          okOpensOf Sys.initial.trace ++ [(BOOSTPULSE_PATH, OFlag.O_WRONLY, r)] ∧
        (boostpulse_open_seq lateOpenEnv Sys.initial 3).viva.boostpulse_fd = r ∧
        (boostpulse_open lateOpenEnv (boostpulse_open_seq lateOpenEnv Sys.initial 3)).1 = r) :=
  ⟨by decide, by decide,
    ((boostpulse_open_memoized lateOpenEnv Sys.initial).2.2.2.1 1 (by decide)).2.1,
    (((boostpulse_open_memoized lateOpenEnv Sys.initial).2.2.2.1 1 (by decide)).2.2.2
      (by decide) 3 (by decide)).1,
    (((boostpulse_open_memoized lateOpenEnv Sys.initial).2.2.2.1 1 (by decide)).2.2.2
      (by decide) 3 (by decide)).2,
    (boostpulse_open_memoized lateOpenEnv Sys.initial).2.2.2.2 (by decide) 3⟩

/-- C1: on an initialised module, an interaction hint for which
`boostpulse_open` yields a non-negative descriptor performs exactly one write,
of the single byte `"1"`, to that descriptor (the module's boost-pulse
descriptor); a vsync hint or any other hint code leaves the whole state, trace
included, as it was: no open, no write. -/
theorem viva_power_hint_dispatch (env : Env) (st : Sys) (data : Nat)
    (hin : st.viva.inited ≠ 0) :
    (0 ≤ (boostpulse_open env st).1 →
      ∃ len : Int,
        writesOf (viva_power_hint env st power_hint_t.POWER_HINT_INTERACTION data).trace =
          writesOf st.trace ++ [((boostpulse_open env st).1, ['1'], len)] ∧
        (viva_power_hint env st power_hint_t.POWER_HINT_INTERACTION data).viva.boostpulse_fd =
          (boostpulse_open env st).1 ∧
        (viva_power_hint env st power_hint_t.POWER_HINT_INTERACTION data).trace =
          (boostpulse_open env st).2.trace ++
            Event.sys_write (boostpulse_open env st).1 ['1'] len ::
              (if len < 0 then
                [Event.alog LogPrio.error ("Error writing to " ++ BOOSTPULSE_PATH ++ ": " ++
                  env.errstr ((boostpulse_open env st).2.trace ++
                    [Event.sys_write (boostpulse_open env st).1 ['1'] len]) ++ "\n")]
              else [])) ∧
    viva_power_hint env st power_hint_t.POWER_HINT_VSYNC data = st ∧
    ∀ code : Int, viva_power_hint env st (power_hint_t.other code) data = st := by
  refine ⟨?_, ?_, ?_⟩
  · intro hfd
    have hw : writesOf (boostpulse_open env st).2.trace = writesOf st.trace := by
      by_cases h : st.viva.boostpulse_fd < 0
      · rw [boostpulse_open_fresh env st h]
        simp only [writesOf_append]
        split <;> simp [writesOf]
      · rw [boostpulse_open_cached env st (by omega)]
        simp [writesOf]
    have hb := boostpulse_open_fd env st
    refine ⟨env.write_ret (boostpulse_open env st).2.trace (boostpulse_open env st).1 ['1'], ?_⟩
    unfold viva_power_hint
    rw [if_neg hin]
    simp only [ge_iff_le, hfd, if_true, hb]
    split
    · refine ⟨?_, hb, ?_⟩
      · simp only [writesOf_append, hw]
        simp [writesOf]
      · simp
    · refine ⟨?_, hb, ?_⟩
      · simp only [writesOf_append, hw]
        simp [writesOf]
      · simp
  · unfold viva_power_hint
    rw [if_neg hin]
  · intro code
    unfold viva_power_hint
    rw [if_neg hin]

/-- C1 (instance): the initialised module in a world where every open yields
descriptor 3 and every write is complete. -/
theorem viva_power_hint_dispatch_witness :
    Sys.ready.viva.inited ≠ 0 ∧
    writesOf (viva_power_hint (fileEnv "") Sys.ready power_hint_t.POWER_HINT_INTERACTION 0).trace
      = [(3, ['1'], 1)] ∧
    viva_power_hint (fileEnv "") Sys.ready power_hint_t.POWER_HINT_VSYNC 0 = Sys.ready :=
  ⟨by decide, by decide,
    (viva_power_hint_dispatch (fileEnv "") Sys.ready 0 (by decide)).2.1⟩

/-- C2: while `inited` is zero, `viva_power_hint` (any hint code, any data) and
`viva_power_set_interactive` (any `on`) return with the whole state as it was:
the module record (`inited`, `boostpulse_fd`, `boostpulse_warned`), the statics
and the trace, so no open, no write and no log took place. -/
theorem uninitialised_entry_points_inert (env : Env) (st : Sys) (hint : power_hint_t)
    (data : Nat) (on_ : Int) (h : st.viva.inited = 0) :
    viva_power_hint env st hint data = st ∧ viva_power_set_interactive st on_ = st ∧
      opensOf (viva_power_hint env st hint data).trace = opensOf st.trace ∧
      writesOf (viva_power_hint env st hint data).trace = writesOf st.trace ∧
      logsOf (viva_power_hint env st hint data).trace = logsOf st.trace ∧
      (viva_power_hint env st hint data).viva = st.viva ∧
      (viva_power_set_interactive st on_).trace = st.trace ∧
      (viva_power_set_interactive st on_).viva = st.viva := by
  have h1 : viva_power_hint env st hint data = st := by
    unfold viva_power_hint
    rw [if_pos h]
  have h2 : viva_power_set_interactive st on_ = st := by
    unfold viva_power_set_interactive
    rw [if_pos h]
  rw [h1, h2]
  exact ⟨rfl, rfl, rfl, rfl, rfl, rfl, rfl, rfl⟩

/-- C2 (instance): the freshly loaded module. -/
theorem uninitialised_entry_points_inert_witness :
    Sys.initial.viva.inited = 0 ∧
    (viva_power_hint (fileEnv "") Sys.initial power_hint_t.POWER_HINT_INTERACTION 0).trace = [] ∧
    (viva_power_set_interactive Sys.initial 1).trace = [] :=
  ⟨rfl,
    congrArg Sys.trace (uninitialised_entry_points_inert (fileEnv "") Sys.initial
      power_hint_t.POWER_HINT_INTERACTION 0 1 rfl).1,
    congrArg Sys.trace (uninitialised_entry_points_inert (fileEnv "") Sys.initial
      power_hint_t.POWER_HINT_INTERACTION 0 1 rfl).2.1⟩

/-- An interaction hint whose open fails is just the failed `boostpulse_open`. -/
theorem viva_power_hint_open_failed (env : Env) (st : Sys) (data : Nat)
    (hin : st.viva.inited ≠ 0) (hneg : (boostpulse_open env st).1 < 0) :
    viva_power_hint env st power_hint_t.POWER_HINT_INTERACTION data =
      (boostpulse_open env st).2 := by
  unfold viva_power_hint
  rw [if_neg hin]
  simp only [ge_iff_le]
  rw [if_neg (by omega)]

theorem interaction_seq_failing (env : Env) (st : Sys) (data : Nat)
    (hin : st.viva.inited ≠ 0) (hfd : st.viva.boostpulse_fd < 0)
    (hw : st.viva.boostpulse_warned = 0)
    (hfail : ∀ tr, env.open_ret tr BOOSTPULSE_PATH OFlag.O_WRONLY < 0) (i : Nat) :
    (interaction_seq env st data i).viva.inited = st.viva.inited ∧
    (interaction_seq env st data i).viva.boostpulse_fd < 0 ∧
    writesOf (interaction_seq env st data i).trace = writesOf st.trace ∧
    (i = 0 ∨
      ((interaction_seq env st data i).viva.boostpulse_warned = 1 ∧
        logsOf (interaction_seq env st data i).trace =
          logsOf st.trace ++ [(LogPrio.error, "Error opening " ++ BOOSTPULSE_PATH ++ ": " ++
            env.errstr (st.trace ++ [Event.mutex_lock,
              Event.sys_open BOOSTPULSE_PATH OFlag.O_WRONLY
                (env.open_ret (st.trace ++ [Event.mutex_lock]) BOOSTPULSE_PATH
                  OFlag.O_WRONLY)]) ++ "\n")])) := by
  induction i with
  | zero => exact ⟨rfl, hfd, rfl, Or.inl rfl⟩
  | succ i ih =>
    obtain ⟨h1, h2, h3, h4⟩ := ih
    have hin1 : (interaction_seq env st data i).viva.inited ≠ 0 := by rw [h1]; exact hin
    have hfr := boostpulse_open_fresh env (interaction_seq env st data i) h2
    have hneg : (boostpulse_open env (interaction_seq env st data i)).1 < 0 := by
      rw [hfr]; exact hfail _
    have hstep : interaction_seq env st data (i + 1) =
        (boostpulse_open env (interaction_seq env st data i)).2 :=
      viva_power_hint_open_failed env _ data hin1 hneg
    rw [hstep, hfr]
    simp only [hfail, true_and]
    refine ⟨h1, ?_, Or.inr ?_⟩
    · simp only [writesOf_append, h3]
      split <;> simp [writesOf]
    · rcases h4 with h0 | ⟨hw1, hl⟩
      · subst h0
        have hw0 : (interaction_seq env st data 0).viva.boostpulse_warned = 0 := hw
        simp only [hw0, if_true, logsOf_append, true_and]
        simp [logsOf, interaction_seq]
      · have hne : ¬ (interaction_seq env st data i).viva.boostpulse_warned = 0 := by
          rw [hw1]; decide
        simp only [hne, if_false, logsOf_append, hl, hw1, true_and]
        simp [logsOf]

/-- C8: on an initialised module with no cached descriptor and no warning given
yet, in a world where every open of the boost-pulse path fails, after `k ≥ 1`
interaction hints: exactly one log line was added in total, the open-failure
warning, and it was added by the first hint; each of the `k` hints attempted the
open once more and got a negative descriptor; and no hint wrote anything. -/
theorem failing_boost_open_warns_once (env : Env) (st : Sys) (data : Nat) (k : Nat)
    (hk : 1 ≤ k) (hin : st.viva.inited ≠ 0) (hfd : st.viva.boostpulse_fd < 0)
    (hw : st.viva.boostpulse_warned = 0)
    (hfail : ∀ tr, env.open_ret tr BOOSTPULSE_PATH OFlag.O_WRONLY < 0) :
    (∃ msg : String,
      logsOf (interaction_seq env st data k).trace =
        logsOf st.trace ++
          [(LogPrio.error, "Error opening " ++ BOOSTPULSE_PATH ++ ": " ++ msg ++ "\n")] ∧
      logsOf (interaction_seq env st data 1).trace =
        logsOf st.trace ++
          [(LogPrio.error, "Error opening " ++ BOOSTPULSE_PATH ++ ": " ++ msg ++ "\n")]) ∧
    (∀ i : Nat, i < k →
      (boostpulse_open env (interaction_seq env st data i)).1 < 0 ∧
      ∃ r : Int, r < 0 ∧
        opensOf (interaction_seq env st data (i + 1)).trace =
          opensOf (interaction_seq env st data i).trace ++
            [(BOOSTPULSE_PATH, OFlag.O_WRONLY, r)]) ∧
    writesOf (interaction_seq env st data k).trace = writesOf st.trace := by
  have inv := interaction_seq_failing env st data hin hfd hw hfail
  refine ⟨⟨env.errstr (st.trace ++ [Event.mutex_lock,
    Event.sys_open BOOSTPULSE_PATH OFlag.O_WRONLY
      (env.open_ret (st.trace ++ [Event.mutex_lock]) BOOSTPULSE_PATH OFlag.O_WRONLY)]),
    ?_, ?_⟩, ?_, (inv k).2.2.1⟩
  · rcases (inv k).2.2.2 with h0 | ⟨_, hl⟩
    · omega
    · exact hl
  · rcases (inv 1).2.2.2 with h0 | ⟨_, hl⟩
    · omega
    · exact hl
  · intro i _
    obtain ⟨h1, h2, _, _⟩ := inv i
    have hin1 : (interaction_seq env st data i).viva.inited ≠ 0 := by rw [h1]; exact hin
    have hfr := boostpulse_open_fresh env (interaction_seq env st data i) h2
    have hneg : (boostpulse_open env (interaction_seq env st data i)).1 < 0 := by
      rw [hfr]; exact hfail _
    have hstep : interaction_seq env st data (i + 1) =
        (boostpulse_open env (interaction_seq env st data i)).2 :=
      viva_power_hint_open_failed env _ data hin1 hneg
    refine ⟨hneg, _, hfail ((interaction_seq env st data i).trace ++ [Event.mutex_lock]), ?_⟩
    rw [hstep, hfr]
    simp only [opensOf_append]
    split <;> simp [opensOf]

/-- C8 (instance): three interaction hints on the initialised module in a
world where no file can be opened. -/
theorem failing_boost_open_warns_once_witness :
    (1 ≤ 3 ∧ Sys.ready.viva.inited ≠ 0 ∧ Sys.ready.viva.boostpulse_fd < 0 ∧
      Sys.ready.viva.boostpulse_warned = 0 ∧
      ∀ tr, noFileEnv.open_ret tr BOOSTPULSE_PATH OFlag.O_WRONLY < 0) ∧
    writesOf (interaction_seq noFileEnv Sys.ready 0 3).trace = writesOf Sys.ready.trace ∧
    (logsOf (interaction_seq noFileEnv Sys.ready 0 3).trace).length = 1 :=
  ⟨⟨by decide, by decide, by decide, by decide, fun _ => by simp [noFileEnv]⟩,
    (failing_boost_open_warns_once noFileEnv Sys.ready 0 3 (by decide) (by decide) (by decide)
      (by decide) (fun _ => by simp [noFileEnv])).2.2,
    by decide⟩

/-! ## Initialisation -/

/-- What `sysfs_read` of a real path into a real buffer appends to the trace:
one read-only open and no write. -/
theorem sysfs_read_trace (env : Env) (tr : List Event) (p : String) (buf : List Char)
    (n : Nat) (hn : n ≠ 0) :
    ∃ new, (sysfs_read env tr (some p) (some buf) n).2.2 = tr ++ new ∧
      opensOf new = [(p, OFlag.O_RDONLY, env.open_ret tr p OFlag.O_RDONLY)] ∧
      writesOf new = [] := by
  unfold sysfs_read
  simp only [hn, if_false]
  split
  · exact ⟨[Event.sys_open p OFlag.O_RDONLY (env.open_ret tr p OFlag.O_RDONLY),
      Event.alog LogPrio.error ("Error opening " ++ p ++ ": " ++
        env.errstr (tr ++ [Event.sys_open p OFlag.O_RDONLY
          (env.open_ret tr p OFlag.O_RDONLY)]) ++ "\n")], by simp, rfl, rfl⟩
  · split
    · exact ⟨[Event.sys_open p OFlag.O_RDONLY (env.open_ret tr p OFlag.O_RDONLY),
        Event.sys_read (env.open_ret tr p OFlag.O_RDONLY) (n - 1) (-1),
        Event.alog LogPrio.error ("Error reading from " ++ p ++ ": " ++
          env.errstr (tr ++ [Event.sys_open p OFlag.O_RDONLY
            (env.open_ret tr p OFlag.O_RDONLY)] ++
            [Event.sys_read (env.open_ret tr p OFlag.O_RDONLY) (n - 1) (-1)]) ++ "\n"),
        Event.sys_close (env.open_ret tr p OFlag.O_RDONLY)], by simp, rfl, rfl⟩
    · rename_i data _
      exact ⟨[Event.sys_open p OFlag.O_RDONLY (env.open_ret tr p OFlag.O_RDONLY),
        Event.sys_read (env.open_ret tr p OFlag.O_RDONLY) (n - 1)
          ((data.take (n - 1)).length : Nat),
        Event.sys_close (env.open_ret tr p OFlag.O_RDONLY)], by simp, rfl, rfl⟩

theorem viva_power_init_skip (env : Env) (st : Sys) (freq_buf : List Char)
    (h : (sysfs_read env st.trace (some FREQ_PATH) (some freq_buf) 200).1 ≤ 0 ∨
      tokensOf (sysfs_read env st.trace (some FREQ_PATH) (some freq_buf) 200).2.1 = []) :
    ∃ g1, viva_power_init env st freq_buf =
      some { st with g := g1
                     trace := (sysfs_read env st.trace (some FREQ_PATH) (some freq_buf) 200).2.2 }
      := by
  have hp : CPUFREQ_CPU0 ++ "scaling_available_frequencies" = FREQ_PATH := rfl
  have hsz : (MAX_FREQ_NUMBER * 10).toNat = 200 := rfl
  unfold viva_power_init
  rw [hp, hsz]
  generalize sysfs_read env st.trace (some FREQ_PATH) (some freq_buf) 200 = r at h ⊢
  obtain ⟨tmp, buf, tr0⟩ := r
  simp only at h ⊢
  by_cases htmp : tmp ≤ 0
  · exact ⟨st.g, by rw [if_pos htmp]⟩
  · have htok : tokensOf buf = [] := by
      rcases h with h | h
      · exact absurd h htmp
      · exact h
    rw [if_neg htmp, str_to_tokens_eq buf st.g.freq_list MAX_FREQ_NUMBER (by decide)]
    simp only [htok, List.length_nil, Nat.min_zero, Nat.cast_zero, if_true]
    exact ⟨_, rfl⟩

theorem viva_power_init_ok (env : Env) (st : Sys) (freq_buf : List Char)
    (hpos : 0 < (sysfs_read env st.trace (some FREQ_PATH) (some freq_buf) 200).1)
    (htok : tokensOf (sysfs_read env st.trace (some FREQ_PATH) (some freq_buf) 200).2.1 ≠ []) :
    ∃ ts nom, ts = tokensOf (sysfs_read env st.trace (some FREQ_PATH) (some freq_buf) 200).2.1 ∧
      ts[min 2 (min 20 ts.length) - 1]? = some nom ∧
      viva_power_init env st freq_buf =
        some
          { viva := { st.viva with inited := 1 }
            g := { freq_num := (min 20 ts.length : Nat)
                   freq_list := st.g.freq_list.fill 0 (ts.take 20)
                   max_freq := ts[min 20 ts.length - 1]?
                   nom_freq := some nom }
            trace :=
              governorWrites env
                (sysfs_read env st.trace (some FREQ_PATH) (some freq_buf) 200).2.2 nom ++
              [Event.alog LogPrio.info "Initialized successfully"] } := by
  have hp : CPUFREQ_CPU0 ++ "scaling_available_frequencies" = FREQ_PATH := rfl
  have hsz : (MAX_FREQ_NUMBER * 10).toNat = 200 := rfl
  unfold viva_power_init
  rw [hp, hsz]
  generalize sysfs_read env st.trace (some FREQ_PATH) (some freq_buf) 200 = r at hpos htok ⊢
  obtain ⟨tmp, buf, tr0⟩ := r
  simp only at hpos htok ⊢
  have hlen : 0 < (tokensOf buf).length := List.length_pos.mpr htok
  have hidx : min 2 (min 20 (tokensOf buf).length) - 1 < (tokensOf buf).length := by omega
  refine ⟨tokensOf buf, (tokensOf buf)[min 2 (min 20 (tokensOf buf).length) - 1], rfl,
    List.getElem?_eq_getElem hidx, ?_⟩
  rw [if_neg (by omega), str_to_tokens_eq buf st.g.freq_list MAX_FREQ_NUMBER (by decide)]
  have hmax : MAX_FREQ_NUMBER.toNat = 20 := rfl
  simp only [hmax, Option.getD_some]
  have hn0 : ¬ ((min 20 (tokensOf buf).length : Nat) : Int) = 0 := by omega
  rw [if_neg hn0]
  have htmp1 : ((if NOM_FREQ_INDEX > ((min 20 (tokensOf buf).length : Nat) : Int) then
      ((min 20 (tokensOf buf).length : Nat) : Int) else NOM_FREQ_INDEX) - 1).toNat =
      min 2 (min 20 (tokensOf buf).length) - 1 := by
    simp only [NOM_FREQ_INDEX]
    split <;> omega
  have hmaxi : (((min 20 (tokensOf buf).length : Nat) : Int) - 1).toNat =
      min 20 (tokensOf buf).length - 1 := by omega
  have hnom : PtrArray.fill st.g.freq_list 0 ((tokensOf buf).take 20)
      (min 2 (min 20 (tokensOf buf).length) - 1) =
      some ((tokensOf buf)[min 2 (min 20 (tokensOf buf).length) - 1]) := by
    rw [PtrArray.fill_apply, if_pos (by simp only [List.length_take]; omega)]
    rw [Nat.sub_zero, List.getElem?_take, if_pos (by omega), List.getElem?_eq_getElem hidx]
  have hmx : PtrArray.fill st.g.freq_list 0 ((tokensOf buf).take 20)
      (min 20 (tokensOf buf).length - 1) = (tokensOf buf)[min 20 (tokensOf buf).length - 1]? := by
    rw [PtrArray.fill_apply, if_pos (by simp only [List.length_take]; omega)]
    rw [Nat.sub_zero, List.getElem?_take, if_pos (by omega)]
  simp only [htmp1, hmaxi, hnom, hmx]
  rfl

theorem cstr_cstr (s : List Char) : cstr (cstr s) = cstr s := by
  unfold cstr
  induction s with
  | nil => rfl
  | cons c r ih =>
    by_cases h : (c != NUL) = true
    · simp only [List.takeWhile_cons, h, if_true, ih]
    · simp only [List.takeWhile_cons, h, if_false, List.takeWhile_nil]
      rfl

theorem cstr_of_mem_specTokens (n : Nat) :
    ∀ s : List Char, s.length ≤ n → ∀ t ∈ specTokens (cstr s), cstr t = t := by
  induction n with
  | zero =>
    intro s hs t ht
    have : s = [] := List.length_eq_zero.mp (Nat.le_zero.mp hs)
    subst this
    simp [specTokens, cstr] at ht
  | succ n ih =>
    intro s hs t ht
    have h := strtok_r_tokens s
    revert h
    cases strtok_r none DELIMS s with
    | mk a s1 =>
      cases a with
      | none =>
        intro h
        simp only at h
        rw [h] at ht
        exact absurd ht (List.not_mem_nil t)
      | some t1 =>
        intro h
        simp only at h
        rw [h.1] at ht
        rcases List.mem_cons.mp ht with h1 | h1
        · rw [h1]
          exact cstr_cstr t1
        · exact ih s1 (by omega) t h1

theorem cstr_of_mem_tokensOf (str : Option (List Char)) (t : List Char) (ht : t ∈ tokensOf str) :
    cstr t = t := by
  cases str with
  | none => exact absurd ht (List.not_mem_nil t)
  | some s => exact cstr_of_mem_specTokens s.length s (Nat.le_refl _) t ht

theorem sysfsWrites_effects (env : Env) (l : List (String × List Char)) :
    ∀ tr : List Event, ∃ new, sysfsWrites env tr l = tr ++ new ∧
      (opensOf new).map (fun o => (o.1, o.2.1)) = l.map (fun pv => (pv.1, OFlag.O_WRONLY)) ∧
      (writesOf new).map (fun w => (w.1, w.2.1)) =
        ((opensOf new).zip (l.map (fun pv => cstr pv.2))).filterMap
          (fun x => if 0 ≤ x.1.2.2 then some (x.1.2.2, x.2) else none) := by
  induction l with
  | nil => intro tr; exact ⟨[], by simp [sysfsWrites], rfl, rfl⟩
  | cons pv l ih =>
    intro tr
    obtain ⟨n1, h1, ho1, len, hw1⟩ := sysfs_write_extends env tr pv.1 pv.2
    obtain ⟨n2, h2, ho2, hw2⟩ := ih (sysfs_write env tr pv.1 pv.2)
    refine ⟨n1 ++ n2, ?_, ?_, ?_⟩
    · show sysfsWrites env (sysfs_write env tr pv.1 pv.2) l = _
      rw [h2, h1, List.append_assoc]
    · simp only [opensOf_append, List.map_append, ho1, ho2]
      rfl
    · simp only [opensOf_append, writesOf_append, List.map_append, ho1, hw1, hw2, List.map_cons,
        List.singleton_append, List.zip_cons_cons, List.filterMap_cons]
      by_cases hfd : env.open_ret tr pv.1 OFlag.O_WRONLY < 0
      · have : ¬ (0 ≤ env.open_ret tr pv.1 OFlag.O_WRONLY) := by omega
        simp [hfd, this]
      · have : 0 ≤ env.open_ret tr pv.1 OFlag.O_WRONLY := by omega
        simp [hfd, this]

theorem filterMap_range'_fill (l : List (List Char)) :
    ∀ (a : PtrArray) (i : Nat), (List.range' i l.length).filterMap (PtrArray.fill a i l) = l := by
  induction l with
  | nil => intro a i; rfl
  | cons t ts ih =>
    intro a i
    have hi : PtrArray.fill a i (t :: ts) i = some t := by
      rw [PtrArray.fill_apply, if_pos (by simp only [List.length_cons]; omega)]
      simp
    have ht : (List.range' (i + 1) ts.length).filterMap (PtrArray.fill a i (t :: ts)) = ts :=
      ih (a.store i (some t)) (i + 1)
    simp only [List.length_cons, List.range'_succ, List.filterMap_cons, hi, ht]

theorem freqTable_fill (a : PtrArray) (l : List (List Char)) (mx nm : Option (List Char)) :
    freqTable { freq_num := (l.length : Nat), freq_list := a.fill 0 l,
                max_freq := mx, nom_freq := nm } = l := by
  simp only [freqTable, Int.toNat_ofNat, List.range_eq_range']
  exact filterMap_range'_fill l a 0

/-- C3: whenever the read of `scaling_available_frequencies` returns a positive
byte count and the buffer, read as a C string, holds at least one token,
`viva_power_init` returns
with `inited = 1`, and between the read and the final log line the trace is
exactly that of five `sysfs_write` calls, in this order: `timer_rate` with
`"20000"`, `min_sample_time` with `"60000"`, `hispeed_freq` with `nom_freq`,
`go_hispeed_load` with `"60"`, `above_hispeed_delay` with `"100000"`.  The
five paths are opened write-only in that order, each value is written once to
its descriptor when its open succeeded, and this holds in every world, that
is for every pattern of failing opens and writes. -/
theorem viva_power_init_governor_writes (env : Env) (st : Sys) (freq_buf : List Char)
    (hpos : 0 < (initRead env st.trace freq_buf).1)
    (htok : tokensOf (initRead env st.trace freq_buf).2.1 ≠ []) :
    ∃ (st1 : Sys) (nom : List Char) (new : List Event),
      viva_power_init env st freq_buf = some st1 ∧
      st1.g.nom_freq = some nom ∧
      st1.viva.inited = 1 ∧
      st1.trace = (initRead env st.trace freq_buf).2.2 ++ new ++
        [Event.alog LogPrio.info "Initialized successfully"] ∧
      (initRead env st.trace freq_buf).2.2 ++ new =
        sysfs_write env
          (sysfs_write env
            (sysfs_write env
              (sysfs_write env
                (sysfs_write env (initRead env st.trace freq_buf).2.2
                  (CPUFREQ_INTERACTIVE ++ "timer_rate") "20000".toList)
                (CPUFREQ_INTERACTIVE ++ "min_sample_time") "60000".toList)
              (CPUFREQ_INTERACTIVE ++ "hispeed_freq") nom)
            (CPUFREQ_INTERACTIVE ++ "go_hispeed_load") "60".toList)
          (CPUFREQ_INTERACTIVE ++ "above_hispeed_delay") "100000".toList ∧
      (opensOf new).map (fun o => (o.1, o.2.1)) =
        [(CPUFREQ_INTERACTIVE ++ "timer_rate", OFlag.O_WRONLY),
         (CPUFREQ_INTERACTIVE ++ "min_sample_time", OFlag.O_WRONLY),
         (CPUFREQ_INTERACTIVE ++ "hispeed_freq", OFlag.O_WRONLY),
         (CPUFREQ_INTERACTIVE ++ "go_hispeed_load", OFlag.O_WRONLY),
         (CPUFREQ_INTERACTIVE ++ "above_hispeed_delay", OFlag.O_WRONLY)] ∧
      (writesOf new).map (fun w => (w.1, w.2.1)) =
        ((opensOf new).zip
            ["20000".toList, "60000".toList, nom, "60".toList, "100000".toList]).filterMap
          (fun x => if 0 ≤ x.1.2.2 then some (x.1.2.2, x.2) else none) := by
  obtain ⟨ts, nom, hts, hnom, hinit⟩ := viva_power_init_ok env st freq_buf hpos htok
  obtain ⟨new, hnew, hopens, hwrites⟩ :=
    sysfsWrites_effects env (governorSettings nom) (initRead env st.trace freq_buf).2.2
  have hmem : nom ∈ tokensOf (initRead env st.trace freq_buf).2.1 := by
    have := List.getElem?_mem hnom
    rw [hts] at this
    exact this
  have hc := cstr_of_mem_tokensOf _ nom hmem
  refine ⟨_, nom, new, hinit, rfl, rfl, ?_, ?_, hopens, ?_⟩
  · show governorWrites env _ nom ++ _ = _
    rw [← hnew]
    rfl
  · rw [← hnew]
    rfl
  · rw [hwrites]
    have : (governorSettings nom).map (fun pv => cstr pv.2) =
        ["20000".toList, "60000".toList, nom, "60".toList, "100000".toList] := by
      have h1 : cstr "20000".toList = "20000".toList := by decide
      have h2 : cstr "60000".toList = "60000".toList := by decide
      have h3 : cstr "60".toList = "60".toList := by decide
      have h4 : cstr "100000".toList = "100000".toList := by decide
      simp only [governorSettings, List.map_cons, List.map_nil, hc, h1, h2, h3, h4]
    rw [this]

/-- C3 (instance): the freshly loaded module in a world whose frequency file
holds four frequencies. -/
theorem viva_power_init_governor_writes_witness :
    (0 < (initRead (fileEnv "200000 400000 800000 1200000\n") Sys.initial.trace []).1 ∧
      tokensOf (initRead (fileEnv "200000 400000 800000 1200000\n") Sys.initial.trace []).2.1
        ≠ []) ∧
    ∃ (st1 : Sys) (nom : List Char) (new : List Event),
      viva_power_init (fileEnv "200000 400000 800000 1200000\n") Sys.initial [] = some st1 ∧
      st1.g.nom_freq = some nom ∧
      st1.viva.inited = 1 ∧
      st1.trace = (initRead (fileEnv "200000 400000 800000 1200000\n") Sys.initial.trace []).2.2
        ++ new ++ [Event.alog LogPrio.info "Initialized successfully"] ∧
      (opensOf new).map (fun o => (o.1, o.2.1)) =
        [(CPUFREQ_INTERACTIVE ++ "timer_rate", OFlag.O_WRONLY),
         (CPUFREQ_INTERACTIVE ++ "min_sample_time", OFlag.O_WRONLY),
         (CPUFREQ_INTERACTIVE ++ "hispeed_freq", OFlag.O_WRONLY),
         (CPUFREQ_INTERACTIVE ++ "go_hispeed_load", OFlag.O_WRONLY),
         (CPUFREQ_INTERACTIVE ++ "above_hispeed_delay", OFlag.O_WRONLY)] :=
  ⟨⟨by decide, by decide⟩,
    match viva_power_init_governor_writes (fileEnv "200000 400000 800000 1200000\n")
      Sys.initial [] (by decide) (by decide) with
    | ⟨st1, nom, new, h1, h2, h3, h4, _, h6, _⟩ => ⟨st1, nom, new, h1, h2, h3, h4, h6⟩⟩

/-- C4: `viva_power_init` always returns.  If the read of
`scaling_available_frequencies` returned a negative value or zero bytes, or the
buffer holds no token, the module record is as before (so `inited` is not set),
the trace is that of the read alone, which holds one read-only open of the
frequency file and no write: none of the governor writes took place.  In the
complementary case, and only then, `inited` is set to 1. -/
theorem viva_power_init_aborts (env : Env) (st : Sys) (freq_buf : List Char) :
    ∃ st1 : Sys, viva_power_init env st freq_buf = some st1 ∧
      (((initRead env st.trace freq_buf).1 ≤ 0 ∨
          tokensOf (initRead env st.trace freq_buf).2.1 = []) →
        st1.viva = st.viva ∧
        st1.trace = (initRead env st.trace freq_buf).2.2 ∧
        writesOf st1.trace = writesOf st.trace ∧
        opensOf st1.trace = opensOf st.trace ++
          [(FREQ_PATH, OFlag.O_RDONLY, env.open_ret st.trace FREQ_PATH OFlag.O_RDONLY)]) ∧
      (¬ ((initRead env st.trace freq_buf).1 ≤ 0 ∨
          tokensOf (initRead env st.trace freq_buf).2.1 = []) →
        st1.viva.inited = 1) ∧
      (st.viva.inited = 0 →
        (st1.viva.inited = 1 ↔
          ¬ ((initRead env st.trace freq_buf).1 ≤ 0 ∨
            tokensOf (initRead env st.trace freq_buf).2.1 = []))) := by
  by_cases h : (initRead env st.trace freq_buf).1 ≤ 0 ∨
      tokensOf (initRead env st.trace freq_buf).2.1 = []
  · obtain ⟨g1, hg⟩ := viva_power_init_skip env st freq_buf h
    obtain ⟨new, hnew, hopen, hwr⟩ :=
      sysfs_read_trace env st.trace FREQ_PATH freq_buf 200 (by decide)
    refine ⟨_, hg, ?_, fun hn => absurd h hn, ?_⟩
    · intro _
      refine ⟨rfl, rfl, ?_, ?_⟩
      · show writesOf (sysfs_read env st.trace (some FREQ_PATH) (some freq_buf) 200).2.2 = _
        rw [hnew, writesOf_append, hwr, List.append_nil]
      · show opensOf (sysfs_read env st.trace (some FREQ_PATH) (some freq_buf) 200).2.2 = _
        rw [hnew, opensOf_append, hopen]
    · intro h0
      constructor
      · intro h1
        have h2 : st.viva.inited = 1 := h1
        rw [h0] at h2
        exact absurd h2 (by decide)
      · intro hn
        exact absurd h hn
  · have hpos : 0 < (initRead env st.trace freq_buf).1 := by
      by_contra hc
      exact h (Or.inl (by omega))
    have htok : tokensOf (initRead env st.trace freq_buf).2.1 ≠ [] := fun hc => h (Or.inr hc)
    obtain ⟨ts, nom, _, _, hinit⟩ := viva_power_init_ok env st freq_buf hpos htok
    exact ⟨_, hinit, fun hh => absurd hh h, fun _ => rfl, fun _ => ⟨fun _ => h, fun _ => rfl⟩⟩

/-- C4 (instance): a world in which the frequency file cannot be opened. -/
theorem viva_power_init_aborts_witness :
    ((initRead noFileEnv Sys.initial.trace []).1 ≤ 0 ∨
      tokensOf (initRead noFileEnv Sys.initial.trace []).2.1 = []) ∧
    ∃ st1 : Sys, viva_power_init noFileEnv Sys.initial [] = some st1 ∧
      st1.viva = Sys.initial.viva ∧ writesOf st1.trace = writesOf Sys.initial.trace :=
  ⟨Or.inl (by decide),
    match viva_power_init_aborts noFileEnv Sys.initial [] with
    | ⟨st1, h1, h2, _, _⟩ => ⟨st1, h1, (h2 (Or.inl (by decide))).1, (h2 (Or.inl (by decide))).2.2.1⟩⟩

/-- The statics after a successful `viva_power_init`, in terms of the table. -/
theorem viva_power_init_table (env : Env) (st : Sys) (freq_buf : List Char)
    (hpos : 0 < (initRead env st.trace freq_buf).1)
    (htok : tokensOf (initRead env st.trace freq_buf).2.1 ≠ []) :
    ∃ st1 : Sys, viva_power_init env st freq_buf = some st1 ∧
      freqTable st1.g = (tokensOf (initRead env st.trace freq_buf).2.1).take 20 ∧
      st1.g.freq_num = ((freqTable st1.g).length : Nat) ∧
      1 ≤ (freqTable st1.g).length ∧ (freqTable st1.g).length ≤ 20 ∧
      st1.g.max_freq = st1.g.freq_list ((freqTable st1.g).length - 1) ∧
      st1.g.nom_freq = st1.g.freq_list (min 2 (freqTable st1.g).length - 1) ∧
      st1.g.max_freq = (freqTable st1.g)[(freqTable st1.g).length - 1]? ∧
      st1.g.nom_freq = (freqTable st1.g)[min 2 (freqTable st1.g).length - 1]? := by
  obtain ⟨ts, nom, hts, hnom, hinit⟩ := viva_power_init_ok env st freq_buf hpos htok
  have hts0 : ts ≠ [] := by rw [hts]; exact htok
  have hlen : 0 < ts.length := List.length_pos.mpr hts0
  have hl : (ts.take 20).length = min 20 ts.length := List.length_take 20 ts
  have htab : freqTable { freq_num := (min 20 ts.length : Nat),
                          freq_list := st.g.freq_list.fill 0 (ts.take 20),
                          max_freq := ts[min 20 ts.length - 1]?,
                          nom_freq := some nom } = ts.take 20 := by
    rw [← hl]
    exact freqTable_fill _ _ _ _
  refine ⟨_, hinit, ?_, ?_, ?_, ?_, ?_, ?_, ?_, ?_⟩
  · rw [htab, hts]
    rfl
  · rw [htab, hl]
  · rw [htab, hl]; omega
  · rw [htab, hl]; omega
  · rw [htab, hl]
    show ts[min 20 ts.length - 1]? = PtrArray.fill st.g.freq_list 0 (ts.take 20) _
    rw [PtrArray.fill_apply, if_pos (by rw [hl]; omega), Nat.sub_zero, List.getElem?_take,
      if_pos (by omega)]
  · rw [htab, hl]
    show some nom = PtrArray.fill st.g.freq_list 0 (ts.take 20) _
    rw [PtrArray.fill_apply, if_pos (by rw [hl]; omega), Nat.sub_zero, List.getElem?_take,
      if_pos (by omega), hnom]
  · rw [htab, hl]
    show ts[min 20 ts.length - 1]? = _
    rw [List.getElem?_take, if_pos (by omega)]
  · rw [htab, hl]
    show some nom = _
    rw [List.getElem?_take, if_pos (by omega), hnom]

/-- C5: after a read of positive length whose buffer holds at least one token,
`viva_power_init` leaves a frequency table of `n` entries with `1 ≤ n ≤ 20` (the
first 20 tokens of the buffer), `max_freq` is the entry at index `n - 1`,
`nom_freq` is the entry at index `min(2, n) - 1`, and both indices are below
`n`.  For the table `200000 400000 800000 1200000` this gives
`max_freq = "1200000"` and `nom_freq = "400000"`; for the table `300000` it
gives `max_freq = nom_freq = "300000"`. -/
theorem viva_power_init_selects (env : Env) (st : Sys) (freq_buf : List Char)
    (hpos : 0 < (initRead env st.trace freq_buf).1)
    (htok : tokensOf (initRead env st.trace freq_buf).2.1 ≠ []) :
    ∃ (st1 : Sys) (n : Nat), viva_power_init env st freq_buf = some st1 ∧
      st1.g.freq_num = n ∧ (freqTable st1.g).length = n ∧ 1 ≤ n ∧ n ≤ 20 ∧
      freqTable st1.g = (tokensOf (initRead env st.trace freq_buf).2.1).take 20 ∧
      n - 1 < n ∧ min 2 n - 1 < n ∧
      st1.g.max_freq = st1.g.freq_list (n - 1) ∧
      st1.g.nom_freq = st1.g.freq_list (min 2 n - 1) ∧
      st1.g.max_freq = (freqTable st1.g)[n - 1]? ∧
      st1.g.nom_freq = (freqTable st1.g)[min 2 n - 1]? ∧
      (freqTable st1.g =
          ["200000".toList, "400000".toList, "800000".toList, "1200000".toList] →
        st1.g.max_freq = some "1200000".toList ∧ st1.g.nom_freq = some "400000".toList) ∧
      (freqTable st1.g = ["300000".toList] →
        st1.g.max_freq = some "300000".toList ∧ st1.g.nom_freq = some "300000".toList) := by
  obtain ⟨st1, hinit, htab, hnum, h1, h20, hmf, hnf, hmx, hnm⟩ :=
    viva_power_init_table env st freq_buf hpos htok
  refine ⟨st1, (freqTable st1.g).length, hinit, hnum, rfl, h1, h20, htab, by omega, by omega,
    hmf, hnf, hmx, hnm, ?_, ?_⟩
  · intro h
    rw [hmx, hnm, h]
    exact ⟨rfl, rfl⟩
  · intro h
    rw [hmx, hnm, h]
    exact ⟨rfl, rfl⟩

/-- C5 (instance): the four-frequency table of the specification, read from the
frequency file by the freshly loaded module. -/
theorem viva_power_init_selects_witness :
    (0 < (initRead (fileEnv "200000 400000 800000 1200000\n") Sys.initial.trace []).1 ∧
      tokensOf (initRead (fileEnv "200000 400000 800000 1200000\n") Sys.initial.trace []).2.1
        ≠ []) ∧
    (∃ st1 : Sys,
      viva_power_init (fileEnv "200000 400000 800000 1200000\n") Sys.initial [] = some st1 ∧
      st1.g.max_freq = some "1200000".toList ∧ st1.g.nom_freq = some "400000".toList) ∧
    ∃ st1 : Sys,
      viva_power_init (fileEnv "300000\n") Sys.initial [] = some st1 ∧
      st1.g.max_freq = some "300000".toList ∧ st1.g.nom_freq = some "300000".toList :=
  ⟨⟨by decide, by decide⟩,
    match viva_power_init_selects (fileEnv "200000 400000 800000 1200000\n") Sys.initial []
      (by decide) (by decide) with
    | ⟨st1, _, h1, _, _, _, _, htab, _, _, _, _, _, _, h4, _⟩ =>
      ⟨st1, h1, h4 (htab.trans (by decide))⟩,
    match viva_power_init_selects (fileEnv "300000\n") Sys.initial []
      (by decide) (by decide) with
    | ⟨st1, _, h1, _, _, _, _, htab, _, _, _, _, _, _, _, h5⟩ =>
      ⟨st1, h1, h5 (htab.trans (by decide))⟩⟩

/-- C10 (counterexample): with the frequency file listing
`1200000 800000 400000 200000`, all decimal, the table has four entries and
`nom_freq` is `800000`, while the second-lowest frequency of the table is
`400000`. -/
theorem nom_freq_not_second_lowest :
    (viva_power_init (fileEnv "1200000 800000 400000 200000\n") Sys.initial []).map
        (fun s => ((freqTable s.g).map decValue, s.g.nom_freq.bind decValue)) =
      some ([some 1200000, some 800000, some 400000, some 200000], some 800000) ∧
    secondLowest [1200000, 800000, 400000, 200000] = some 400000 := by
  decide

/-- C10 (as amended): after a successful read with at least one token,
`nom_freq` is the second entry of the table in the order of the file when the
table has at least two entries, and the last entry when it has fewer;
`max_freq` is the last entry of the table.  When the entries are decimal
numbers in strictly increasing order (and there are at least two), `nom_freq`
is the second-lowest frequency by numeric value. -/
theorem nom_freq_second_entry (env : Env) (st : Sys) (freq_buf : List Char)
    (hpos : 0 < (initRead env st.trace freq_buf).1)
    (htok : tokensOf (initRead env st.trace freq_buf).2.1 ≠ []) :
    ∃ st1 : Sys, viva_power_init env st freq_buf = some st1 ∧
      (2 ≤ (freqTable st1.g).length → st1.g.nom_freq = (freqTable st1.g)[1]?) ∧
      ((freqTable st1.g).length < 2 → st1.g.nom_freq = (freqTable st1.g).getLast?) ∧
      st1.g.max_freq = (freqTable st1.g).getLast? ∧
      ∀ vals : List Nat, (freqTable st1.g).map decValue = vals.map some →
        List.Sorted (fun a b => a < b) vals → 2 ≤ vals.length →
        st1.g.nom_freq.bind decValue = secondLowest vals := by
  obtain ⟨st1, hinit, _, _, h1, _, _, _, hmx, hnm⟩ :=
    viva_power_init_table env st freq_buf hpos htok
  have hnom2 : 2 ≤ (freqTable st1.g).length → st1.g.nom_freq = (freqTable st1.g)[1]? := by
    intro h
    rw [hnm]
    congr 1
    omega
  refine ⟨st1, hinit, hnom2, ?_, ?_, ?_⟩
  · intro h
    rw [hnm, List.getLast?_eq_getElem?]
    congr 1
    omega
  · rw [hmx, List.getLast?_eq_getElem?]
  · intro vals hv hs h2
    have hlen : (freqTable st1.g).length = vals.length := by
      have := congrArg List.length hv
      simpa using this
    rw [hnom2 (by omega)]
    have hsort : List.insertionSort (fun a b => a ≤ b) vals = vals :=
      List.Sorted.insertionSort_eq (hs.imp (fun h => Nat.le_of_lt h))
    have h1v : ((freqTable st1.g).map decValue)[1]? = (vals.map some)[1]? := by rw [hv]
    rw [List.getElem?_map, List.getElem?_map] at h1v
    simp only [secondLowest, hsort]
    cases hx : (freqTable st1.g)[1]? with
    | none =>
      rw [hx] at h1v
      cases hy : vals[1]? with
      | none => rfl
      | some y => rw [hy] at h1v; exact absurd h1v (by simp)
    | some x =>
      rw [hx] at h1v
      cases hy : vals[1]? with
      | none => rw [hy] at h1v; exact absurd h1v (by simp)
      | some y =>
        rw [hy] at h1v
        simp only [Option.map_some', Option.some.injEq] at h1v
        exact h1v

/-- C10 (instance): the increasing four-frequency table. -/
theorem nom_freq_second_entry_witness :
    (0 < (initRead (fileEnv "200000 400000 800000 1200000\n") Sys.initial.trace []).1 ∧
      tokensOf (initRead (fileEnv "200000 400000 800000 1200000\n") Sys.initial.trace []).2.1
        ≠ []) ∧
    ∃ st1 : Sys,
      viva_power_init (fileEnv "200000 400000 800000 1200000\n") Sys.initial [] = some st1 ∧
      st1.g.max_freq = (freqTable st1.g).getLast? ∧
      (2 ≤ (freqTable st1.g).length → st1.g.nom_freq = (freqTable st1.g)[1]?) :=
  ⟨⟨by decide, by decide⟩,
    match nom_freq_second_entry (fileEnv "200000 400000 800000 1200000\n") Sys.initial []
      (by decide) (by decide) with
    | ⟨st1, h1, h2, _, h4, _⟩ => ⟨st1, h1, h4, h2⟩⟩

end PowerViva
